import Mathlib

/-!
Verification development for the IoT_simulation repository.

Shallow embedding of the three core components described by the spec:
* `MeshNetwork` (src/unnamed/part_000, include/network/MeshNetwork.h)
* `SimulationEngine` event queue (src/src/simulation/SimulationEngine.cpp)
* `NetworkManager` delivery pipeline (src/src/network/NetworkManager.cpp)

C++ machine integers are modelled as `Int`, wall-clock instants as `Nat`
millisecond ticks, `double` rates as `Rat`, and `std::map` containers as
association lists with first-match lookup.  Threads are modelled by making
each loop body an explicit state-transition function.
-/

namespace IoTSim

/-! ## MeshNetwork data model (include/network/MeshNetwork.h lines 17-27)

`signalStrength` is an unused placeholder `double` (set once, never read);
it is omitted from the embedding. -/

structure MeshNode where
  deviceId : String
  neighbors : List String
  hopCountToGateway : Int
  isGateway : Bool
  deriving Repr, DecidableEq

/-- Association-list model of `std::map<std::string, MeshNode>`. -/
abbrev NodeMap := List (String × MeshNode)

/-- Models `nodes.find(k)` — first-match lookup. -/
def mfind (m : NodeMap) (k : String) : Option MeshNode :=
  match m with
  | [] => none
  | (k0, v) :: rest => if k0 = k then some v else mfind rest k

/-- Models `nodes[k] = v` — replace the binding if present, otherwise insert. -/
def massign (m : NodeMap) (k : String) (v : MeshNode) : NodeMap :=
  match m with
  | [] => [(k, v)]
  | (k0, v0) :: rest => if k0 = k then (k0, v) :: rest else (k0, v0) :: massign rest k v

/-- Mutation through a found iterator: update the binding if present. -/
def mupdate (m : NodeMap) (k : String) (f : MeshNode → MeshNode) : NodeMap :=
  match m with
  | [] => []
  | (k0, v0) :: rest => if k0 = k then (k0, f v0) :: rest else (k0, v0) :: mupdate rest k f

/-- Models `nodes.erase(k)` (keys are unique in every reachable state, so removing
every binding of `k` models `std::map::erase`). -/
def merase (m : NodeMap) (k : String) : NodeMap :=
  m.filter (fun p => p.1 != k)

/-- The value-initialized `MeshNode` produced by `std::map::operator[]` on a
missing key (empty id, no neighbors, zero-initialized int and bool). -/
def defaultNode : MeshNode := ⟨"", [], 0, false⟩

/-- Models `nodes[k].hopCountToGateway = h` — `operator[]` inserts a
value-initialized node when the key is absent. -/
def setHop (m : NodeMap) (k : String) (h : Int) : NodeMap :=
  match mfind m k with
  | some n => massign m k { n with hopCountToGateway := h }
  | none => m ++ [(k, { defaultNode with hopCountToGateway := h })]

/-- Reading `nodes[k].hopCountToGateway` through `operator[]`: returns the
hop count and the possibly-extended map. -/
def readHopIns (m : NodeMap) (k : String) : Int × NodeMap :=
  match mfind m k with
  | some n => (n.hopCountToGateway, m)
  | none => (0, m ++ [(k, defaultNode)])

structure MeshNetwork where
  nodes : NodeMap
  gatewayId : String
  maxHops : Int
  deriving Repr, DecidableEq

/-- Embeds `MeshNetwork::MeshNetwork(int maxHopCount = 10)` (part_000 lines 8-11). -/
def MeshNetwork.mk0 (maxHopCount : Int) : MeshNetwork := ⟨[], "", maxHopCount⟩

/-! ### updateHopCounts (part_000 lines 260-299) -/

/-- Body of the `for (neighborId : currentNode.neighbors)` loop inside the
hop-count BFS, including the short-circuit evaluation of
`visited.find(n) == visited.end() || nodes[n].hopCountToGateway > nextHops`. -/
def hopRelaxNeighbors (maxHops nextHops : Int) :
    List String → NodeMap → List String → List (String × Int) →
    NodeMap × List String × List (String × Int)
  | [], nodes, visited, queue => (nodes, visited, queue)
  | n :: rest, nodes, visited, queue =>
    let step :=
      if n ∈ visited then
        let r := readHopIns nodes n
        (decide (r.1 > nextHops), r.2)
      else (true, nodes)
    if step.1 then
      let nodes2 := setHop step.2 n nextHops
      let visited2 := if n ∈ visited then visited else n :: visited
      let queue2 := if nextHops < maxHops then queue ++ [(n, nextHops)] else queue
      hopRelaxNeighbors maxHops nextHops rest nodes2 visited2 queue2
    else
      hopRelaxNeighbors maxHops nextHops rest step.2 visited queue

/-- The `while (!queue.empty())` loop of `updateHopCounts`; `fuel` bounds the
number of iterations (the hop ceiling makes the real loop terminate). -/
def hopBfs (maxHops : Int) : Nat → NodeMap → List String → List (String × Int) → NodeMap
  | 0, nodes, _, _ => nodes
  | _ + 1, nodes, _, [] => nodes
  | fuel + 1, nodes, visited, (cur, curHops) :: queue =>
    let curNode := (mfind nodes cur).getD defaultNode
    let nextHops := curHops + 1
    let s := hopRelaxNeighbors maxHops nextHops curNode.neighbors nodes visited queue
    hopBfs maxHops fuel s.1 s.2.1 s.2.2

/-- Embeds `MeshNetwork::updateHopCounts` (part_000 lines 260-299): early return on
an empty gateway id, then reset every hop count and BFS from the gateway. -/
def updateHopCounts (net : MeshNetwork) : MeshNetwork :=
  if net.gatewayId = "" then net
  else
    let reset : NodeMap := net.nodes.map (fun p =>
      if p.1 = net.gatewayId then (p.1, { p.2 with hopCountToGateway := 0 })
      else (p.1, { p.2 with hopCountToGateway := net.maxHops }))
    let fuel := net.nodes.length * (net.maxHops.toNat + 2) + 2
    { net with nodes := hopBfs net.maxHops fuel reset [net.gatewayId] [(net.gatewayId, 0)] }

/-- Embeds `MeshNetwork::updateRoutingTable` (part_000 lines 104-107). -/
def updateRoutingTable (net : MeshNetwork) : MeshNetwork := updateHopCounts net

/-! ### Topology mutation (part_000 lines 13-93, 129-152) -/

/-- Embeds `MeshNetwork::addDevice` (part_000 lines 13-35). -/
def addDevice (net : MeshNetwork) (deviceId : String) (isGatewayNode : Bool) :
    Bool × MeshNetwork :=
  if (mfind net.nodes deviceId).isSome then (false, net)
  else
    let node : MeshNode := ⟨deviceId, [], net.maxHops, isGatewayNode⟩
    let nodes1 := massign net.nodes deviceId node
    if isGatewayNode then
      (true, { net with nodes := setHop nodes1 deviceId 0, gatewayId := deviceId })
    else (true, { net with nodes := nodes1 })

/-- The guarded `push_back` of `addNeighbor`: append `who` to a neighbor
list only if it is not already present. -/
def pushNb (who : String) (n : MeshNode) : MeshNode :=
  if who ∈ n.neighbors then n else { n with neighbors := n.neighbors ++ [who] }

/-- Embeds `MeshNetwork::addNeighbor` (part_000 lines 37-63). -/
def addNeighbor (net : MeshNetwork) (deviceId neighborId : String) :
    Bool × MeshNetwork :=
  if (mfind net.nodes deviceId).isNone || (mfind net.nodes neighborId).isNone then
    (false, net)
  else
    let nodes1 := mupdate net.nodes deviceId (pushNb neighborId)
    let nodes2 := mupdate nodes1 neighborId (pushNb deviceId)
    (true, updateRoutingTable { net with nodes := nodes2 })

/-- The `neighbors.erase(std::remove(...))` idiom of `removeDevice`: delete
every occurrence of `deviceId` from a node's neighbor list. -/
def pruneN (deviceId : String) (n : MeshNode) : MeshNode :=
  { n with neighbors := n.neighbors.filter (fun x => x != deviceId) }

/-- Embeds `MeshNetwork::removeDevice` (part_000 lines 65-93). -/
def removeDevice (net : MeshNetwork) (deviceId : String) : Bool × MeshNetwork :=
  match mfind net.nodes deviceId with
  | none => (false, net)
  | some node =>
    let nodes1 := node.neighbors.foldl
      (fun m nb => mupdate m nb (pruneN deviceId)) net.nodes
    let gw1 := if deviceId = net.gatewayId then "" else net.gatewayId
    let nodes2 := merase nodes1 deviceId
    (true, updateRoutingTable { net with nodes := nodes2, gatewayId := gw1 })

/-- Embeds `MeshNetwork::setGateway` (part_000 lines 129-152). -/
def setGateway (net : MeshNetwork) (deviceId : String) : MeshNetwork :=
  if (mfind net.nodes deviceId).isSome then
    let nodes1 :=
      if net.gatewayId ≠ "" then
        mupdate net.nodes net.gatewayId (fun n => { n with isGateway := false })
      else net.nodes
    let nodes2 := mupdate nodes1 deviceId (fun n =>
      { n with isGateway := true, hopCountToGateway := 0 })
    updateHopCounts { net with nodes := nodes2, gatewayId := deviceId }
  else net

/-! ### Queries (part_000 lines 95-127) -/

/-- Embeds `MeshNetwork::getHopCount` (part_000 lines 109-115). -/
def getHopCount (net : MeshNetwork) (deviceId : String) : Int :=
  match mfind net.nodes deviceId with
  | some n => n.hopCountToGateway
  | none => net.maxHops

/-- Embeds `MeshNetwork::canReachGateway` (part_000 lines 117-119). -/
def canReachGateway (net : MeshNetwork) (deviceId : String) : Bool :=
  getHopCount net deviceId < net.maxHops

/-! ### bfsShortestPath and findOptimalPath (part_000 lines 95-102, 214-258) -/

/-- The `parent[k]` lookup during path reconstruction (`operator[]` yields the
empty string on a missing key). -/
def plookup (m : List (String × String)) (k : String) : String :=
  match m with
  | [] => ""
  | (k0, v) :: rest => if k0 = k then v else plookup rest k

/-- The `while (node != start)` walk of the reconstruction, accumulating the
reversed path; `fuel` bounds the walk (the BFS parent chain always reaches
`start`). -/
def walkBack (parent : List (String × String)) (start : String) :
    Nat → String → List String → List String
  | 0, _, acc => acc
  | fuel + 1, node, acc =>
    if node = start then acc
    else walkBack parent start fuel (plookup parent node) (acc ++ [node])

/-- Path reconstruction in `bfsShortestPath` (part_000 lines 242-251). -/
def reconstructPath (parent : List (String × String)) (start target : String) :
    List String :=
  ((walkBack parent start (parent.length + 1) target []) ++ [start]).reverse

/-- The `for (neighborId : currentNode.neighbors)` loop of `bfsShortestPath`,
which may return a path as soon as the target is discovered. -/
def bfsScanNeighbors (start target cur : String) :
    List String → List String → List (String × String) → List String →
    Option (List String) × List String × List (String × String) × List String
  | [], visited, parent, queue => (none, visited, parent, queue)
  | n :: rest, visited, parent, queue =>
    if n ∈ visited then bfsScanNeighbors start target cur rest visited parent queue
    else
      let visited2 := n :: visited
      let parent2 := parent ++ [(n, cur)]
      let queue2 := queue ++ [n]
      if n = target then
        (some (reconstructPath parent2 start target), visited2, parent2, queue2)
      else bfsScanNeighbors start target cur rest visited2 parent2 queue2

/-- The `while (!queue.empty())` loop of `bfsShortestPath`. -/
def bfsLoop (nodes : NodeMap) (start target : String) :
    Nat → List String → List (String × String) → List String → Option (List String)
  | 0, _, _, _ => none
  | _ + 1, _, _, [] => none
  | fuel + 1, visited, parent, cur :: queue =>
    let curNode := (mfind nodes cur).getD defaultNode
    match bfsScanNeighbors start target cur curNode.neighbors visited parent queue with
    | (some path, _, _, _) => some path
    | (none, visited2, parent2, queue2) => bfsLoop nodes start target fuel visited2 parent2 queue2

/-- Embeds `MeshNetwork::bfsShortestPath` (part_000 lines 214-258).  The fuel
`nodes.length + 1` dominates the number of dequeues: every node is enqueued
at most once thanks to the visited set. -/
def bfsShortestPath (net : MeshNetwork) (start target : String) : List String :=
  if (mfind net.nodes start).isNone || (mfind net.nodes target).isNone then []
  else if start = target then [start]
  else
    match bfsLoop net.nodes start target (net.nodes.length + 1) [start] [] [start] with
    | some path => path
    | none => []

/-- Embeds `MeshNetwork::findOptimalPath` (part_000 lines 95-102). -/
def findOptimalPath (net : MeshNetwork) (sourceDevice : String) : List String :=
  if net.gatewayId = "" then [] else bfsShortestPath net sourceDevice net.gatewayId

/-! ### Call sequences against a `MeshNetwork` -/

/-- One public mutating call on a `MeshNetwork`. -/
inductive MeshOp
  | addDevice (id : String) (isGw : Bool)
  | addNeighbor (a b : String)
  | removeDevice (id : String)
  | setGateway (id : String)
  deriving Repr, DecidableEq

/-- Apply one call (boolean results are discarded). -/
def applyOp (net : MeshNetwork) : MeshOp → MeshNetwork
  | .addDevice id isGw => (addDevice net id isGw).2
  | .addNeighbor a b => (addNeighbor net a b).2
  | .removeDevice id => (removeDevice net id).2
  | .setGateway id => setGateway net id

/-- Run a sequence of calls from a given state. -/
def runOps (ops : List MeshOp) (net : MeshNetwork) : MeshNetwork :=
  ops.foldl applyOp net

/-! ### Predicates about the mesh topology -/

/-- The observable shape of a node apart from its hop count (the unused
`deviceId` copy is ignored). -/
def shapeOf (n : MeshNode) : List String × Bool := (n.neighbors, n.isGateway)

/-- Two node maps agree on every binding up to hop counts. -/
def ShapeEq (m m2 : NodeMap) : Prop :=
  ∀ k, (mfind m2 k).map shapeOf = (mfind m k).map shapeOf

/-- Every neighbor reference points at a node present in the map. -/
def Closed (m : NodeMap) : Prop :=
  ∀ k n, mfind m k = some n → ∀ b ∈ n.neighbors, (mfind m b).isSome = true

/-- Holds when `b` appears in the neighbor list of a node `a` present in `m`. -/
def memAdj (m : NodeMap) (a b : String) : Prop :=
  ∃ n, mfind m a = some n ∧ b ∈ n.neighbors

/-- Adjacency is symmetric (spec §3 invariant). -/
def Sym (m : NodeMap) : Prop :=
  ∀ a b, memAdj m a b → memAdj m b a

/-- Every gateway flag of `m2` was already set at the same key in `m`
(hop-count maintenance never raises a flag). -/
def FlagSub (m2 m : NodeMap) : Prop :=
  ∀ k n2, mfind m2 k = some n2 → n2.isGateway = true →
    ∃ n, mfind m k = some n ∧ n.isGateway = true

/-- Restriction for the amended gateway-uniqueness claim: gateways are
designated only through `setGateway`, and device ids are nonempty (the code
uses the empty string as the no-gateway sentinel). -/
def opOKb : MeshOp → Bool
  | .addDevice id isGw => !isGw && id != ""
  | _ => true

/-- No node is keyed by the empty string (the no-gateway sentinel). -/
def KeysNE (m : NodeMap) : Prop := mfind m "" = none

/-- Every raised gateway flag sits exactly on the node named by
`gatewayId`, which is then nonempty (spec §3 invariant). -/
def FlagInv (net : MeshNetwork) : Prop :=
  ∀ k n, mfind net.nodes k = some n → n.isGateway = true →
    k = net.gatewayId ∧ net.gatewayId ≠ ""

/-- The inductive invariant of reachable mesh states (under the
`opOKb` restriction for the flag part). -/
def MeshInv (net : MeshNetwork) : Prop :=
  Closed net.nodes ∧ Sym net.nodes ∧ KeysNE net.nodes ∧ FlagInv net

/-! ## SimulationEngine event queue
(include/simulation/SimulationEngine.h lines 21-34,
src/src/simulation/SimulationEngine.cpp lines 100-141, 253-274)

Wall-clock instants (`std::chrono::steady_clock::time_point`) are `Nat`
millisecond ticks.  A callback executing at poll time `now` sees `now` as the
current time. -/

structure SimulationEvent (α : Type) where
  scheduledTime : Nat
  eventId : String
  callback : α
  priority : Int
  deriving Repr, DecidableEq

/-- Embeds `SimulationEvent::operator>` (SimulationEngine.h lines 28-33): later time
first; at equal times, lower priority is the greater element. -/
def evGt {α : Type} (a b : SimulationEvent α) : Bool :=
  if a.scheduledTime = b.scheduledTime then decide (a.priority < b.priority)
  else decide (a.scheduledTime > b.scheduledTime)

/-- Holds when `a` may legitimately be popped before `b`: strictly earlier fire time, or
the same fire time with priority at least as high. -/
def evBefore {α : Type} (a b : SimulationEvent α) : Prop :=
  a.scheduledTime < b.scheduledTime ∨
    (a.scheduledTime = b.scheduledTime ∧ b.priority ≤ a.priority)

/-- Extraction of the top of `std::priority_queue<_, _, std::greater<_>>`:
keeps the current candidate minimum under `operator>` while scanning.  The
standard leaves the order of equivalent elements unspecified; this picks the
leftmost minimal element. -/
def selectMin {α : Type} : SimulationEvent α → List (SimulationEvent α) →
    SimulationEvent α × List (SimulationEvent α)
  | e, [] => (e, [])
  | e, x :: xs =>
    if evGt e x then
      let r := selectMin x xs
      (r.1, e :: r.2)
    else
      let r := selectMin e xs
      (r.1, x :: r.2)

/-- Models `top()` + `pop()` on the event priority queue. -/
def popMin {α : Type} :
    List (SimulationEvent α) → Option (SimulationEvent α × List (SimulationEvent α))
  | [] => none
  | e :: l => some (selectMin e l)

/-- Pop every event, in the order the priority queue delivers them. -/
def drainFuel {α : Type} : Nat → List (SimulationEvent α) → List (SimulationEvent α)
  | 0, _ => []
  | _ + 1, [] => []
  | fuel + 1, e :: l =>
    let r := selectMin e l
    r.1 :: drainFuel fuel r.2

/-- The order in which `processEvents` pops (and hence executes) the events
of a queue, once all of them are due. -/
def drainAll {α : Type} (q : List (SimulationEvent α)) : List (SimulationEvent α) :=
  drainFuel q.length q

/-- The closures relevant to the repeating-event analysis
(SimulationEngine.cpp lines 123-141):
* `user` — the caller's callback;
* `repeatWrap interval id priority` — the `repeatingCallback` lambda: runs
  the caller's callback, then schedules the inner rescheduling lambda
  `interval` later under the same id/priority;
* `resched interval id priority` — the inner lambda passed to
  `scheduleEvent`, whose body just calls `scheduleRepeatingEvent` again. -/
inductive Callback
  | user
  | repeatWrap (interval : Nat) (id : String) (priority : Int)
  | resched (interval : Nat) (id : String) (priority : Int)
  deriving Repr, DecidableEq

/-- Engine state visible to the event machinery.  `userFires` is a ghost
counter of invocations of the caller's callback. -/
structure EngineState where
  eventQueue : List (SimulationEvent Callback)
  totalEventsProcessed : Nat
  userFires : Nat
  deriving Repr, DecidableEq

def EngineState.mk0 : EngineState := ⟨[], 0, 0⟩

/-- Embeds `SimulationEngine::scheduleEvent` (SimulationEngine.cpp lines 100-121):
fire time `now + delay`; an empty id is replaced by
`"EVENT_" + std::to_string(totalEventsProcessed)`. -/
def scheduleEvent (st : EngineState) (now delay : Nat) (cb : Callback)
    (eventId : String) (priority : Int) : EngineState :=
  let id := if eventId = "" then "EVENT_" ++ toString st.totalEventsProcessed else eventId
  { st with eventQueue := st.eventQueue ++ [⟨now + delay, id, cb, priority⟩] }

/-- Embeds `SimulationEngine::scheduleRepeatingEvent` (SimulationEngine.cpp lines
123-141): schedules the `repeatingCallback` wrapper one interval from now. -/
def scheduleRepeatingEvent (st : EngineState) (now interval : Nat)
    (eventId : String) (priority : Int) : EngineState :=
  let actualEventId :=
    if eventId = "" then "REPEAT_" ++ toString st.totalEventsProcessed else eventId
  scheduleEvent st now interval (.repeatWrap interval actualEventId priority)
    actualEventId priority

/-- Execute one popped callback at poll time `now`. -/
def execCallback (st : EngineState) (now : Nat) : Callback → EngineState
  | .user => { st with userFires := st.userFires + 1 }
  | .repeatWrap interval id priority =>
    let st1 := { st with userFires := st.userFires + 1 }
    scheduleEvent st1 now interval (.resched interval id priority) id priority
  | .resched interval id priority =>
    scheduleRepeatingEvent st now interval id priority

/-- Embeds `SimulationEngine::processEvents` (SimulationEngine.cpp lines 253-274):
pop and run every event whose fire time is at most `now`;
`totalEventsProcessed` is incremented after each callback.  `fuel` bounds the
loop (a callback may push new due events). -/
def processEvents (now : Nat) : Nat → EngineState → EngineState
  | 0, st => st
  | fuel + 1, st =>
    match popMin st.eventQueue with
    | none => st
    | some (e, rest) =>
      if e.scheduledTime ≤ now then
        let st1 := execCallback { st with eventQueue := rest } now e.callback
        processEvents now fuel { st1 with totalEventsProcessed := st1.totalEventsProcessed + 1 }
      else st

/-- Number of pending queue entries carrying a given event id. -/
def countPendingId (st : EngineState) (id : String) : Nat :=
  (st.eventQueue.filter (fun e => e.eventId == id)).length

/-! ## NetworkManager delivery pipeline
(src/src/network/NetworkManager.cpp lines 31-73, 146-193, 204-261)

The `std::mt19937` draw of `uniform_real_distribution<double>(0.0, 1.0)` is
modelled by an explicit rational parameter `r` with `0 ≤ r < 1`; `double`
rates are rationals. -/

inductive MessageType
  | DATA
  | COMMAND
  | ACKNOWLEDGMENT
  | ERROR
  deriving Repr, DecidableEq

/-- Embeds `iot::Message` (include/core/Message.h); the timestamp and header map
play no role in the delivery pipeline and are omitted. -/
structure Message where
  messageId : String
  sourceDeviceId : String
  destinationDeviceId : String
  payload : String
  type : MessageType
  deriving Repr, DecidableEq

/-- Embeds the `NetworkManager::NetworkStats` counters. -/
structure NetworkStats where
  messagesSent : Nat
  messagesReceived : Nat
  messagesDropped : Nat
  errors : Nat
  deriving Repr, DecidableEq

structure NetworkManager where
  running : Bool
  messageQueue : List Message
  stats : NetworkStats
  packetLossRate : Rat
  networkDelayMin : Rat
  networkDelayMax : Rat
  deriving Repr, DecidableEq

/-- Embeds `NetworkManager::simulateNetworkConditions` (NetworkManager.cpp lines
184-193) at a drawn random value `r`. -/
def simulateNetworkConditions (nm : NetworkManager) (r : Rat) : Bool :=
  if nm.packetLossRate > 0 then
    if r < nm.packetLossRate then false else true
  else true

/-- Embeds `NetworkManager::sendMessage` (NetworkManager.cpp lines 52-73). -/
def sendMessage (nm : NetworkManager) (msg : Message) (r : Rat) :
    Bool × NetworkManager :=
  if !simulateNetworkConditions nm r then
    (false, { nm with stats :=
      { nm.stats with messagesDropped := nm.stats.messagesDropped + 1 } })
  else
    (true, { nm with
      messageQueue := nm.messageQueue ++ [msg],
      stats := { nm.stats with messagesSent := nm.stats.messagesSent + 1 } })

/-- Embeds `NetworkManager::deliverMessage` (NetworkManager.cpp lines 204-261).
The device-registry collaborator (spec §6) is abstracted by the oracles
`deviceExists` and `sendOk`; the optional IPsec hook only transforms a local
copy of the payload and is a pass-through. -/
def deliverMessage (deviceExists : String → Bool) (sendOk : Message → Bool)
    (nm : NetworkManager) (msg : Message) : NetworkManager :=
  let delivered :=
    if deviceExists msg.destinationDeviceId then sendOk msg else false
  if delivered then
    { nm with stats :=
      { nm.stats with messagesReceived := nm.stats.messagesReceived + 1 } }
  else
    { nm with stats := { nm.stats with errors := nm.stats.errors + 1 } }

/-- One iteration of the `NetworkManager::processMessages` worker loop
(NetworkManager.cpp lines 146-182), entered after the condition variable
wait (which returns once the queue is nonempty or `running` is false).
Returns the new state, the messages handed to delivery during the
iteration, and whether the loop exited. -/
def processStep (deviceExists : String → Bool) (sendOk : Message → Bool)
    (nm : NetworkManager) : NetworkManager × List Message × Bool :=
  if nm.running = false then
    let nm2 :=
      if nm.messageQueue.isEmpty then nm
      else
        { nm with
          messageQueue := [],
          stats := { nm.stats with
            messagesDropped := nm.stats.messagesDropped + nm.messageQueue.length } }
    (nm2, [], true)
  else
    match nm.messageQueue with
    | [] => (nm, [], false)
    | msg :: rest =>
      (deliverMessage deviceExists sendOk { nm with messageQueue := rest } msg,
       [msg], false)

/-- Embeds `NetworkManager::stop` (NetworkManager.cpp lines 39-50): clears the
running flag (then wakes and joins the worker). -/
def NetworkManager.stop (nm : NetworkManager) : NetworkManager :=
  if nm.running = false then nm else { nm with running := false }

/-! ## Concrete instances used by individual claims -/

/-- The straight chain `G - A - B - C - D` with `G` the gateway, at the
default hop ceiling 10. -/
def chainOps : List MeshOp :=
  [.addDevice "G" true, .addDevice "A" false, .addDevice "B" false,
   .addDevice "C" false, .addDevice "D" false,
   .addNeighbor "G" "A", .addNeighbor "A" "B",
   .addNeighbor "B" "C", .addNeighbor "C" "D"]

def chainNet : MeshNetwork := runOps chainOps (MeshNetwork.mk0 10)

/-- Chain `G - A - B - C` under hop ceiling 2: the gateway is 3 hops from
`C`, beyond the ceiling. -/
def deepChainNet : MeshNetwork :=
  runOps
    [.addDevice "G" true, .addDevice "A" false, .addDevice "B" false,
     .addDevice "C" false,
     .addNeighbor "G" "A", .addNeighbor "A" "B", .addNeighbor "B" "C"]
    (MeshNetwork.mk0 2)

/-- Two devices both registered as gateways through `addDevice`. -/
def twoGatewayNet : MeshNetwork :=
  runOps [.addDevice "A" true, .addDevice "B" true] (MeshNetwork.mk0 10)

/-- The C1 scenario: a fresh engine, `scheduleRepeatingEvent` with a 100 ms
interval, then the scheduler thread's polls at t = 0, 100, 200, 300 ms — all
the iterations of the running scheduler loop that fall inside a 350 ms
observation window (the loop sleeps `timeStep = 100 ms` per iteration). -/
def c1Start : EngineState := scheduleRepeatingEvent EngineState.mk0 0 100 "" 0

def c1Poll1 : EngineState := processEvents 0 8 c1Start
def c1Poll2 : EngineState := processEvents 100 8 c1Poll1
def c1Poll3 : EngineState := processEvents 200 8 c1Poll2
def c1Poll4 : EngineState := processEvents 300 8 c1Poll3

/-- Two events scheduled with empty ids on a fresh engine, before any event
has been processed. -/
def c10State : EngineState :=
  scheduleEvent (scheduleEvent EngineState.mk0 0 50 .user "" 0) 0 60 .user "" 5

/-- A network manager with total packet loss. -/
def lossyNM : NetworkManager :=
  ⟨true, [], ⟨0, 0, 0, 0⟩, 1, 0, 0⟩

def msgA : Message := ⟨"MSG_1", "TEMP_001", "LED_001", "TEMP:21.5", .DATA⟩
def msgB : Message := ⟨"MSG_2", "TEMP_001", "LED_001", "TEMP:22.0", .DATA⟩
def msgC : Message := ⟨"MSG_3", "SYSTEM", "MOTOR_001", "SPEED:75", .COMMAND⟩

/-- A running manager with three undelivered queued messages. -/
def busyNM : NetworkManager :=
  ⟨true, [msgA, msgB, msgC], ⟨5, 2, 1, 0⟩, 0, 0, 0⟩

/-- A restricted call sequence used to instantiate the amended gateway
claim: two plain devices, one link, gateway designated via `setGateway`. -/
def c2WitnessOps : List MeshOp :=
  [.addDevice "A" false, .addDevice "B" false,
   .addNeighbor "A" "B", .setGateway "A"]

/-! ## Association-map lemmas -/

theorem mfind_massign (m : NodeMap) (k : String) (v : MeshNode) (q : String) :
    mfind (massign m k v) q = if k = q then some v else mfind m q := by
  induction m with
  | nil => simp [massign, mfind]
  | cons p rest ih =>
    obtain ⟨k0, v0⟩ := p
    by_cases h0 : k0 = k
    · subst h0
      by_cases hq : k0 = q <;> simp [massign, mfind, hq]
    · by_cases hq : k0 = q
      · subst hq
        have : ¬ k = k0 := fun h => h0 h.symm
        simp [massign, mfind, h0, this]
      · simp [massign, mfind, h0, hq, ih]

theorem mfind_mupdate (m : NodeMap) (k : String) (f : MeshNode → MeshNode)
    (q : String) :
    mfind (mupdate m k f) q = if k = q then (mfind m k).map f else mfind m q := by
  induction m with
  | nil => simp [mupdate, mfind]
  | cons p rest ih =>
    obtain ⟨k0, v0⟩ := p
    by_cases h0 : k0 = k
    · subst h0
      by_cases hq : k0 = q <;> simp [mupdate, mfind, hq]
    · by_cases hq : k0 = q
      · subst hq
        have : ¬ k = k0 := fun h => h0 h.symm
        simp [mupdate, mfind, h0, this]
      · simp [mupdate, mfind, h0, hq, ih]

theorem mfind_merase (m : NodeMap) (k : String) (q : String) :
    mfind (merase m k) q = if q = k then none else mfind m q := by
  induction m with
  | nil => simp [merase, mfind]
  | cons p rest ih =>
    obtain ⟨k0, v0⟩ := p
    by_cases h0 : k0 = k
    · subst h0
      have hstep : merase ((k0, v0) :: rest) k0 = merase rest k0 := by
        simp [merase]
      rw [hstep, ih]
      by_cases hq : q = k0
      · simp [hq]
      · have hne : ¬ k0 = q := fun h => hq h.symm
        simp [hq, mfind, hne]
    · have hstep : merase ((k0, v0) :: rest) k = (k0, v0) :: merase rest k := by
        simp [merase, h0]
      rw [hstep]
      by_cases hq : k0 = q
      · have hqk : ¬ q = k := fun h => h0 (hq.trans h)
        simp [mfind, hq, hqk]
      · simp [mfind, hq, ih]

theorem mfind_append (m1 m2 : NodeMap) (q : String) :
    mfind (m1 ++ m2) q =
      match mfind m1 q with
      | some v => some v
      | none => mfind m2 q := by
  induction m1 with
  | nil => simp [mfind]
  | cons p rest ih =>
    obtain ⟨k0, v0⟩ := p
    by_cases hq : k0 = q <;> simp [mfind, hq, ih]

theorem mfind_setHop (m : NodeMap) (k : String) (h : Int) (q : String) :
    mfind (setHop m k h) q =
      if k = q then
        some { (mfind m k).getD defaultNode with hopCountToGateway := h }
      else mfind m q := by
  unfold setHop
  cases hmk : mfind m k with
  | some n => simp [mfind_massign, hmk]
  | none =>
    rw [mfind_append]
    by_cases hq : k = q
    · subst hq
      simp [hmk, mfind]
    · cases hm : mfind m q <;> simp [hq, mfind, hm]

theorem mfind_readHopIns (m : NodeMap) (k : String) (q : String) :
    mfind (readHopIns m k).2 q =
      if k = q then some ((mfind m k).getD defaultNode) else mfind m q := by
  unfold readHopIns
  cases hmk : mfind m k with
  | some n =>
    by_cases hq : k = q
    · subst hq
      simp [hmk]
    · simp [hq]
  | none =>
    rw [mfind_append]
    by_cases hq : k = q
    · subst hq
      simp [hmk, mfind]
    · cases hm : mfind m q <;> simp [hq, mfind, hm]

/-! ## C3, C8, C1, C10: concrete evaluations of the embedded code -/

/-- C3: on the chain `G - A - B - C - D` with gateway `G` and the default
hop ceiling 10, the hop counts are exactly A:1, B:2, C:3, D:4 and
`findOptimalPath("D")` is exactly `[D, C, B, A, G]`. -/
theorem c3_chain_hops_and_path :
    getHopCount chainNet "A" = 1 ∧ getHopCount chainNet "B" = 2 ∧
    getHopCount chainNet "C" = 3 ∧ getHopCount chainNet "D" = 4 ∧
    findOptimalPath chainNet "D" = ["D", "C", "B", "A", "G"] := by
  decide

/-- C8: `findOptimalPath`'s BFS ignores the `maxHops` ceiling that
`updateHopCounts` enforces: on a chain whose gateway is 3 hops away under a
ceiling of 2, `findOptimalPath` returns a non-empty path while
`canReachGateway` answers false for the same source. -/
theorem c8_path_ignores_hop_ceiling :
    deepChainNet.maxHops = 2 ∧
    findOptimalPath deepChainNet "C" = ["C", "B", "A", "G"] ∧
    findOptimalPath deepChainNet "C" ≠ [] ∧
    canReachGateway deepChainNet "C" = false := by
  decide

/-- C1 (evaluation at the failing input): a repeating event with a 100 ms
interval on a continuously running engine fires the caller's callback only
twice inside a 350 ms window — at t = 100 and t = 300 — because the
reschedule detours through an intermediate wrapper event, doubling the
effective period; meanwhile at most one pending occurrence of the event is
ever in the queue, as the claim also states. -/
theorem c1_repeating_event_fires_twice_not_thrice :
    c1Poll1.userFires = 0 ∧ c1Poll2.userFires = 1 ∧
    c1Poll3.userFires = 1 ∧ c1Poll4.userFires = 2 ∧
    ¬ 3 ≤ c1Poll4.userFires ∧
    ([c1Start, c1Poll1, c1Poll2, c1Poll3, c1Poll4].all
      (fun st => countPendingId st "REPEAT_0" ≤ 1)) = true := by
  decide

/-- C10: two events scheduled with empty ids on a fresh engine both receive
the auto-generated identifier `"EVENT_0"`, because the name is derived from
`totalEventsProcessed`, which scheduling never increments. -/
theorem c10_auto_event_ids_collide :
    c10State.eventQueue.map (fun e => e.eventId) = ["EVENT_0", "EVENT_0"] ∧
    c10State.totalEventsProcessed = 0 := by
  decide

/-! ## C5: total packet loss -/

/-- C5: with the loss rate at 1.0, every `sendMessage` call returns false,
adds one to the dropped counter, leaves the sent (and received) counters
unchanged, and never enqueues the message — for every value the uniform
[0,1) generator can draw. -/
theorem c5_total_loss_always_drops (nm : NetworkManager) (msg : Message)
    (r : Rat) (hrate : nm.packetLossRate = 1) (h0 : 0 ≤ r) (h1 : r < 1) :
    (sendMessage nm msg r).1 = false ∧
    (sendMessage nm msg r).2.stats.messagesDropped = nm.stats.messagesDropped + 1 ∧
    (sendMessage nm msg r).2.stats.messagesSent = nm.stats.messagesSent ∧
    (sendMessage nm msg r).2.stats.messagesReceived = nm.stats.messagesReceived ∧
    (sendMessage nm msg r).2.messageQueue = nm.messageQueue := by
  have hcond : simulateNetworkConditions nm r = false := by
    unfold simulateNetworkConditions
    rw [hrate]
    simp [h1]
  unfold sendMessage
  rw [hcond]
  simp

theorem c5_witness :
    lossyNM.packetLossRate = 1 ∧ (0 : Rat) ≤ 1 / 2 ∧ (1 : Rat) / 2 < 1 ∧
    ((sendMessage lossyNM msgA (1 / 2)).1 = false ∧
      (sendMessage lossyNM msgA (1 / 2)).2.stats.messagesDropped =
        lossyNM.stats.messagesDropped + 1 ∧
      (sendMessage lossyNM msgA (1 / 2)).2.stats.messagesSent =
        lossyNM.stats.messagesSent ∧
      (sendMessage lossyNM msgA (1 / 2)).2.stats.messagesReceived =
        lossyNM.stats.messagesReceived ∧
      (sendMessage lossyNM msgA (1 / 2)).2.messageQueue = lossyNM.messageQueue) :=
  ⟨by norm_num [lossyNM], by norm_num, by norm_num,
   c5_total_loss_always_drops lossyNM msgA (1 / 2) (by norm_num [lossyNM])
     (by norm_num) (by norm_num)⟩

/-! ## C6: stop with a residual queue -/

/-- C6: however many messages are still queued when `stop()` flips the
running flag, the worker's next iteration exits the loop immediately,
attempts no delivery, empties the queue, and adds exactly the number of
residual messages to the dropped counter, leaving the sent and received
counters untouched. -/
theorem c6_stop_drops_residual_queue (deviceExists : String → Bool)
    (sendOk : Message → Bool) (nm : NetworkManager) (hrun : nm.running = true) :
    (processStep deviceExists sendOk (NetworkManager.stop nm)).2.2 = true ∧
    (processStep deviceExists sendOk (NetworkManager.stop nm)).2.1 = [] ∧
    (processStep deviceExists sendOk (NetworkManager.stop nm)).1.messageQueue = [] ∧
    (processStep deviceExists sendOk (NetworkManager.stop nm)).1.stats.messagesDropped =
      nm.stats.messagesDropped + nm.messageQueue.length ∧
    (processStep deviceExists sendOk (NetworkManager.stop nm)).1.stats.messagesReceived =
      nm.stats.messagesReceived ∧
    (processStep deviceExists sendOk (NetworkManager.stop nm)).1.stats.messagesSent =
      nm.stats.messagesSent := by
  have hstop : NetworkManager.stop nm = { nm with running := false } := by
    unfold NetworkManager.stop
    rw [hrun]
    simp
  rw [hstop]
  unfold processStep
  by_cases hq : nm.messageQueue.isEmpty
  · have hnil : nm.messageQueue = [] := List.isEmpty_iff.mp hq
    simp [hq, hnil]
  · simp [hq]

theorem c6_witness :
    busyNM.running = true ∧
    ((processStep (fun _ => true) (fun _ => true)
        (NetworkManager.stop busyNM)).2.2 = true ∧
      (processStep (fun _ => true) (fun _ => true)
        (NetworkManager.stop busyNM)).2.1 = [] ∧
      (processStep (fun _ => true) (fun _ => true)
        (NetworkManager.stop busyNM)).1.messageQueue = [] ∧
      (processStep (fun _ => true) (fun _ => true)
        (NetworkManager.stop busyNM)).1.stats.messagesDropped =
          busyNM.stats.messagesDropped + busyNM.messageQueue.length ∧
      (processStep (fun _ => true) (fun _ => true)
        (NetworkManager.stop busyNM)).1.stats.messagesReceived =
          busyNM.stats.messagesReceived ∧
      (processStep (fun _ => true) (fun _ => true)
        (NetworkManager.stop busyNM)).1.stats.messagesSent =
          busyNM.stats.messagesSent) :=
  ⟨rfl, c6_stop_drops_residual_queue (fun _ => true) (fun _ => true) busyNM rfl⟩

/-! ## C9: removing the gateway leaves stale hop counts -/

theorem mfind_foldPrune (L : List String) (m : NodeMap) (dev : String)
    (q : String) :
    mfind (L.foldl (fun acc nb => mupdate acc nb (pruneN dev)) m) q =
      if q ∈ L then (mfind m q).map (pruneN dev) else mfind m q := by
  induction L generalizing m with
  | nil => simp
  | cons nb L ih =>
    rw [List.foldl_cons, ih, mfind_mupdate]
    by_cases hnb : nb = q
    · subst hnb
      have hpp : pruneN dev ∘ pruneN dev = pruneN dev := by
        funext n
        simp [pruneN, List.filter_filter]
      by_cases hL : nb ∈ L
      · simp [hL, Option.map_map, hpp]
      · simp [hL]
    · have hq2 : ¬ q = nb := fun h => hnb h.symm
      by_cases hL : q ∈ L
      · simp [hnb, hL, hq2]
      · simp [hnb, hL, hq2]

/-- Hop counts survive the pruning fold untouched. -/
theorem pruneN_hop (dev : String) (n : MeshNode) :
    (pruneN dev n).hopCountToGateway = n.hopCountToGateway := rfl

/-- C9: calling `removeDevice` on the current gateway empties `gatewayId`,
so the hop-count recomputation returns immediately and every remaining
node's `hopCountToGateway` (hence `getHopCount` and `canReachGateway`)
keeps its pre-removal value. -/
theorem c9_remove_gateway_keeps_stale_hops (net : MeshNetwork)
    (hgw : (mfind net.nodes net.gatewayId).isSome = true) :
    (removeDevice net net.gatewayId).2.gatewayId = "" ∧
    ∀ k, k ≠ net.gatewayId →
      getHopCount (removeDevice net net.gatewayId).2 k = getHopCount net k ∧
      canReachGateway (removeDevice net net.gatewayId).2 k =
        canReachGateway net k := by
  obtain ⟨node, hnode⟩ := Option.isSome_iff_exists.mp hgw
  have hres : (removeDevice net net.gatewayId).2 =
      updateRoutingTable
        { net with
          nodes := merase (node.neighbors.foldl
            (fun acc nb => mupdate acc nb (pruneN net.gatewayId)) net.nodes)
            net.gatewayId,
          gatewayId := "" } := by
    unfold removeDevice
    rw [hnode]
    simp
  have hid : ∀ net2 : MeshNetwork, net2.gatewayId = "" →
      updateRoutingTable net2 = net2 := by
    intro net2 h2
    unfold updateRoutingTable updateHopCounts
    rw [h2]
    simp
  rw [hres, hid _ rfl]
  refine ⟨rfl, ?_⟩
  intro k hk
  have hfind : mfind (merase (node.neighbors.foldl
      (fun acc nb => mupdate acc nb (pruneN net.gatewayId)) net.nodes)
      net.gatewayId) k =
      if k ∈ node.neighbors then (mfind net.nodes k).map (pruneN net.gatewayId)
      else mfind net.nodes k := by
    rw [mfind_merase, mfind_foldPrune]
    simp [hk]
  have hhop : getHopCount
      { net with
        nodes := merase (node.neighbors.foldl
          (fun acc nb => mupdate acc nb (pruneN net.gatewayId)) net.nodes)
          net.gatewayId,
        gatewayId := "" } k = getHopCount net k := by
    unfold getHopCount
    rw [hfind]
    by_cases hnb : k ∈ node.neighbors
    · simp only [hnb, if_true]
      cases mfind net.nodes k <;> simp [pruneN]
    · simp [hnb]
  refine ⟨hhop, ?_⟩
  unfold canReachGateway
  rw [hhop]

theorem c9_witness :
    (mfind chainNet.nodes chainNet.gatewayId).isSome = true ∧
    (removeDevice chainNet chainNet.gatewayId).2.gatewayId = "" ∧
    ("A" : String) ≠ chainNet.gatewayId ∧
    getHopCount (removeDevice chainNet chainNet.gatewayId).2 "A" =
      getHopCount chainNet "A" ∧
    canReachGateway (removeDevice chainNet chainNet.gatewayId).2 "A" =
      canReachGateway chainNet "A" ∧
    getHopCount chainNet "A" = 1 ∧ canReachGateway chainNet "A" = true :=
  ⟨by decide,
   (c9_remove_gateway_keeps_stale_hops chainNet (by decide)).1,
   by decide,
   ((c9_remove_gateway_keeps_stale_hops chainNet (by decide)).2 "A" (by decide)).1,
   ((c9_remove_gateway_keeps_stale_hops chainNet (by decide)).2 "A" (by decide)).2,
   by decide, by decide⟩

/-! ## C4: the event queue pops by (time ascending, priority descending) -/

theorem evGt_false_iff {α : Type} (a b : SimulationEvent α) :
    evGt a b = false ↔ evBefore a b := by
  unfold evGt evBefore
  by_cases ht : a.scheduledTime = b.scheduledTime
  · rw [if_pos ht]
    simp only [decide_eq_false_iff_not, not_lt]
    constructor
    · intro h
      exact Or.inr ⟨ht, h⟩
    · intro h
      rcases h with h | ⟨_, h⟩
      · exact absurd ht (Nat.ne_of_lt h)
      · exact h
  · rw [if_neg ht]
    simp only [decide_eq_false_iff_not, not_lt, gt_iff_lt]
    constructor
    · intro h
      exact Or.inl (lt_of_le_of_ne h ht)
    · intro h
      rcases h with h | ⟨h, _⟩
      · exact le_of_lt h
      · exact absurd h ht

theorem evGt_true_evBefore {α : Type} (a b : SimulationEvent α)
    (h : evGt a b = true) : evBefore b a := by
  unfold evGt at h
  unfold evBefore
  by_cases ht : a.scheduledTime = b.scheduledTime
  · rw [if_pos ht] at h
    exact Or.inr ⟨ht.symm, le_of_lt (of_decide_eq_true h)⟩
  · rw [if_neg ht] at h
    exact Or.inl (of_decide_eq_true h)

theorem evBefore_refl {α : Type} (a : SimulationEvent α) : evBefore a a :=
  Or.inr ⟨rfl, le_refl _⟩

theorem evBefore_trans {α : Type} (a b c : SimulationEvent α)
    (h1 : evBefore a b) (h2 : evBefore b c) : evBefore a c := by
  unfold evBefore at *
  rcases h1 with h1 | ⟨h1t, h1p⟩
  · rcases h2 with h2 | ⟨h2t, _⟩
    · exact Or.inl (h1.trans h2)
    · exact Or.inl (h2t ▸ h1)
  · rcases h2 with h2 | ⟨h2t, h2p⟩
    · exact Or.inl (h1t ▸ h2)
    · exact Or.inr ⟨h1t.trans h2t, h2p.trans h1p⟩

theorem selectMin_spec {α : Type} (l : List (SimulationEvent α))
    (e : SimulationEvent α) :
    ((selectMin e l).1 :: (selectMin e l).2).Perm (e :: l) ∧
    ∀ x ∈ e :: l, evBefore (selectMin e l).1 x := by
  induction l generalizing e with
  | nil =>
    refine ⟨List.Perm.refl _, ?_⟩
    intro x hx
    rw [List.mem_singleton] at hx
    subst hx
    exact evBefore_refl _
  | cons y ys ih =>
    by_cases hgt : evGt e y = true
    · obtain ⟨ihperm, ihmin⟩ := ih y
      have hsel : selectMin e (y :: ys) =
          ((selectMin y ys).1, e :: (selectMin y ys).2) := by
        simp [selectMin, hgt]
      rw [hsel]
      refine ⟨?_, ?_⟩
      · exact (List.Perm.swap e (selectMin y ys).1 (selectMin y ys).2).trans
          (ihperm.cons e)
      · intro x hx
        rcases List.mem_cons.mp hx with hx | hx
        · subst hx
          exact evBefore_trans _ _ _ (ihmin y (List.mem_cons_self _ _))
            (evGt_true_evBefore _ _ hgt)
        · exact ihmin x hx
    · obtain ⟨ihperm, ihmin⟩ := ih e
      have hsel : selectMin e (y :: ys) =
          ((selectMin e ys).1, y :: (selectMin e ys).2) := by
        simp [selectMin, hgt]
      rw [hsel]
      have hby : evBefore e y :=
        (evGt_false_iff e y).mp (Bool.eq_false_iff.mpr hgt)
      refine ⟨?_, ?_⟩
      · exact ((List.Perm.swap y (selectMin e ys).1 (selectMin e ys).2).trans
          (ihperm.cons y)).trans (List.Perm.swap e y ys)
      · intro x hx
        rcases List.mem_cons.mp hx with hx | hx
        · subst hx
          exact ihmin x (List.mem_cons_self _ _)
        · rcases List.mem_cons.mp hx with hx | hx
          · subst hx
            exact evBefore_trans _ _ _ (ihmin e (List.mem_cons_self _ _)) hby
          · exact ihmin x (List.mem_cons.mpr (Or.inr hx))

theorem drainFuel_perm {α : Type} (fuel : Nat) (q : List (SimulationEvent α))
    (hlen : q.length ≤ fuel) : (drainFuel fuel q).Perm q := by
  induction fuel generalizing q with
  | zero =>
    cases q with
    | nil => simp [drainFuel]
    | cons e l => exact absurd hlen (by simp)
  | succ fuel ih =>
    cases q with
    | nil => simp [drainFuel]
    | cons e l =>
      obtain ⟨hperm, _⟩ := selectMin_spec l e
      have hlen2 : (selectMin e l).2.length = l.length := by
        have := hperm.length_eq
        simpa using this
      have hle : (selectMin e l).2.length ≤ fuel := by
        rw [hlen2]
        simp only [List.length_cons] at hlen
        omega
      exact ((ih _ hle).cons (selectMin e l).1).trans hperm

theorem drainFuel_pairwise {α : Type} (fuel : Nat)
    (q : List (SimulationEvent α)) (hlen : q.length ≤ fuel) :
    List.Pairwise evBefore (drainFuel fuel q) := by
  induction fuel generalizing q with
  | zero => simp [drainFuel]
  | succ fuel ih =>
    cases q with
    | nil => simp [drainFuel]
    | cons e l =>
      obtain ⟨hperm, hmin⟩ := selectMin_spec l e
      have hlen2 : (selectMin e l).2.length = l.length := by
        have := hperm.length_eq
        simpa using this
      have hle : (selectMin e l).2.length ≤ fuel := by
        rw [hlen2]
        simp only [List.length_cons] at hlen
        omega
      refine List.Pairwise.cons ?_ (ih _ hle)
      intro x hx
      have hx2 : x ∈ (selectMin e l).2 := (drainFuel_perm fuel _ hle).subset hx
      have hx3 : x ∈ (selectMin e l).1 :: (selectMin e l).2 :=
        List.mem_cons.mpr (Or.inr hx2)
      exact hmin x (hperm.subset hx3)

/-- C4: `processEvents` pops events in exactly the order given by
`SimulationEvent::operator>`: the drained sequence is a permutation of the
queue in which every earlier-popped event either has a strictly earlier fire
time or shares the fire time with a priority at least as high — so of two
events with different fire times the earlier one executes first, and at
identical fire times the numerically higher priority executes first. -/
theorem c4_events_pop_by_time_then_priority {α : Type}
    (q : List (SimulationEvent α)) :
    (drainAll q).Perm q ∧ List.Pairwise evBefore (drainAll q) :=
  ⟨drainFuel_perm q.length q (le_refl _),
   drainFuel_pairwise q.length q (le_refl _)⟩

/-! ## Shape, flag and hop preservation through `updateHopCounts` -/

theorem shapeEq_refl (m : NodeMap) : ShapeEq m m := fun _ => rfl

theorem shapeEq_trans {m1 m2 m3 : NodeMap} (h1 : ShapeEq m1 m2)
    (h2 : ShapeEq m2 m3) : ShapeEq m1 m3 :=
  fun k => (h2 k).trans (h1 k)

theorem shapeEq_isSome {m m2 : NodeMap} (h : ShapeEq m m2) (k : String) :
    (mfind m2 k).isSome = (mfind m k).isSome := by
  have hk := h k
  cases h1 : mfind m k <;> cases h2 : mfind m2 k <;>
    rw [h1, h2] at hk <;> simp_all

theorem closed_of_shapeEq {m m2 : NodeMap} (hc : Closed m) (hs : ShapeEq m m2) :
    Closed m2 := by
  intro k n2 hfind b hb
  have hk := hs k
  rw [hfind] at hk
  cases hm : mfind m k with
  | none => rw [hm] at hk; simp at hk
  | some n =>
    rw [hm] at hk
    simp only [Option.map_some', Option.some.injEq, shapeOf, Prod.mk.injEq] at hk
    have hb2 : b ∈ n.neighbors := hk.1 ▸ hb
    rw [shapeEq_isSome hs b]
    exact hc k n hm b hb2

theorem sym_of_shapeEq {m m2 : NodeMap} (hsym : Sym m) (hs : ShapeEq m m2) :
    Sym m2 := by
  intro a b hadj
  obtain ⟨n2, hfind, hb⟩ := hadj
  have hk := hs a
  rw [hfind] at hk
  cases hm : mfind m a with
  | none => rw [hm] at hk; simp at hk
  | some n =>
    rw [hm] at hk
    simp only [Option.map_some', Option.some.injEq, shapeOf, Prod.mk.injEq] at hk
    obtain ⟨nb, hnb, ha⟩ := hsym a b ⟨n, hm, hk.1 ▸ hb⟩
    have hk2 := hs b
    rw [hnb] at hk2
    cases hm2 : mfind m2 b with
    | none => rw [hm2] at hk2; simp at hk2
    | some nb2 =>
      rw [hm2] at hk2
      simp only [Option.map_some', Option.some.injEq, shapeOf, Prod.mk.injEq] at hk2
      exact ⟨nb2, hm2, hk2.1 ▸ ha⟩

theorem keysNE_of_shapeEq {m m2 : NodeMap} (hk : KeysNE m) (hs : ShapeEq m m2) :
    KeysNE m2 := by
  unfold KeysNE at *
  have := shapeEq_isSome hs ""
  rw [hk] at this
  simpa using this

theorem readHopIns_present (m : NodeMap) (k : String)
    (hk : (mfind m k).isSome = true) : (readHopIns m k).2 = m := by
  obtain ⟨n, hn⟩ := Option.isSome_iff_exists.mp hk
  unfold readHopIns
  rw [hn]

theorem shapeEq_setHop (m : NodeMap) (k : String) (h : Int)
    (hk : (mfind m k).isSome = true) : ShapeEq m (setHop m k h) := by
  intro q
  rw [mfind_setHop]
  by_cases hq : k = q
  · subst hq
    obtain ⟨n, hn⟩ := Option.isSome_iff_exists.mp hk
    simp [hn, shapeOf]
  · simp [hq]

theorem flagSub_refl (m : NodeMap) : FlagSub m m :=
  fun k n2 hfind hflag => ⟨n2, hfind, hflag⟩

theorem flagSub_trans {m1 m2 m3 : NodeMap} (h1 : FlagSub m1 m2)
    (h2 : FlagSub m2 m3) : FlagSub m1 m3 := by
  intro k n hfind hflag
  obtain ⟨n2, hfind2, hflag2⟩ := h1 k n hfind hflag
  exact h2 k n2 hfind2 hflag2

theorem flagSub_setHop (m : NodeMap) (k : String) (h : Int) :
    FlagSub (setHop m k h) m := by
  intro q n2 hfind hflag
  rw [mfind_setHop] at hfind
  by_cases hq : k = q
  · subst hq
    rw [if_pos rfl] at hfind
    cases hm : mfind m k with
    | none =>
      rw [hm] at hfind
      injection hfind with h2
      rw [← h2] at hflag
      simp [defaultNode] at hflag
    | some n =>
      rw [hm] at hfind
      injection hfind with h2
      rw [← h2] at hflag
      exact ⟨n, rfl, hflag⟩
  · rw [if_neg hq] at hfind
    exact ⟨n2, hfind, hflag⟩

theorem flagSub_readHopIns (m : NodeMap) (k : String) :
    FlagSub (readHopIns m k).2 m := by
  intro q n2 hfind hflag
  rw [mfind_readHopIns] at hfind
  by_cases hq : k = q
  · subst hq
    rw [if_pos rfl] at hfind
    cases hm : mfind m k with
    | none =>
      rw [hm] at hfind
      injection hfind with h2
      rw [← h2] at hflag
      simp [defaultNode] at hflag
    | some n =>
      rw [hm] at hfind
      injection hfind with h2
      rw [← h2] at hflag
      exact ⟨n, rfl, hflag⟩
  · rw [if_neg hq] at hfind
    exact ⟨n2, hfind, hflag⟩

/-! ### Unfolding equations for the hop-count BFS -/

theorem hopRelax_nil (mh nh : Int) (m : NodeMap) (v : List String)
    (q : List (String × Int)) :
    hopRelaxNeighbors mh nh [] m v q = (m, v, q) := rfl

theorem hopRelax_cons_improve (mh nh : Int) (n : String) (rest : List String)
    (m : NodeMap) (v : List String) (q : List (String × Int)) (hv : n ∈ v)
    (hc : decide ((readHopIns m n).1 > nh) = true) :
    hopRelaxNeighbors mh nh (n :: rest) m v q =
      hopRelaxNeighbors mh nh rest (setHop (readHopIns m n).2 n nh) v
        (if nh < mh then q ++ [(n, nh)] else q) := by
  simp only [hopRelaxNeighbors, if_pos hv, hc, if_true, if_pos hv]

theorem hopRelax_cons_skip (mh nh : Int) (n : String) (rest : List String)
    (m : NodeMap) (v : List String) (q : List (String × Int)) (hv : n ∈ v)
    (hc : decide ((readHopIns m n).1 > nh) = false) :
    hopRelaxNeighbors mh nh (n :: rest) m v q =
      hopRelaxNeighbors mh nh rest (readHopIns m n).2 v q := by
  simp only [hopRelaxNeighbors, if_pos hv, hc, if_false, Bool.false_eq_true]

theorem hopRelax_cons_fresh (mh nh : Int) (n : String) (rest : List String)
    (m : NodeMap) (v : List String) (q : List (String × Int)) (hv : ¬ n ∈ v) :
    hopRelaxNeighbors mh nh (n :: rest) m v q =
      hopRelaxNeighbors mh nh rest (setHop m n nh) (n :: v)
        (if nh < mh then q ++ [(n, nh)] else q) := by
  simp only [hopRelaxNeighbors, if_neg hv, if_true]

theorem hopBfs_cons (mh : Int) (fuel : Nat) (m : NodeMap) (v : List String)
    (cur : String) (ch : Int) (q : List (String × Int)) :
    hopBfs mh (fuel + 1) m v ((cur, ch) :: q) =
      hopBfs mh fuel
        (hopRelaxNeighbors mh (ch + 1) ((mfind m cur).getD defaultNode).neighbors m v q).1
        (hopRelaxNeighbors mh (ch + 1) ((mfind m cur).getD defaultNode).neighbors m v q).2.1
        (hopRelaxNeighbors mh (ch + 1) ((mfind m cur).getD defaultNode).neighbors m v q).2.2 := by
  simp only [hopBfs]

/-! ### Flag preservation through the BFS -/

theorem flagSub_hopRelax (mh nh : Int) (ns : List String) :
    ∀ (m : NodeMap) (v : List String) (q : List (String × Int)),
      FlagSub (hopRelaxNeighbors mh nh ns m v q).1 m := by
  induction ns with
  | nil =>
    intro m v q
    rw [hopRelax_nil]
    exact flagSub_refl m
  | cons n rest ih =>
    intro m v q
    by_cases hv : n ∈ v
    · cases hc : decide ((readHopIns m n).1 > nh) with
      | true =>
        rw [hopRelax_cons_improve mh nh n rest m v q hv hc]
        exact flagSub_trans
          (ih _ _ _)
          (flagSub_trans (flagSub_setHop _ n nh) (flagSub_readHopIns m n))
      | false =>
        rw [hopRelax_cons_skip mh nh n rest m v q hv hc]
        exact flagSub_trans (ih _ _ _) (flagSub_readHopIns m n)
    · rw [hopRelax_cons_fresh mh nh n rest m v q hv]
      exact flagSub_trans (ih _ _ _) (flagSub_setHop m n nh)

theorem flagSub_hopBfs (mh : Int) (fuel : Nat) :
    ∀ (m : NodeMap) (v : List String) (q : List (String × Int)),
      FlagSub (hopBfs mh fuel m v q) m := by
  induction fuel with
  | zero =>
    intro m v q
    exact flagSub_refl m
  | succ fuel ih =>
    intro m v q
    cases q with
    | nil => exact flagSub_refl m
    | cons p rest =>
      obtain ⟨cur, ch⟩ := p
      rw [hopBfs_cons]
      exact flagSub_trans (ih _ _ _) (flagSub_hopRelax mh (ch + 1) _ m v rest)

/-! ### Shape preservation through the BFS (no phantom insertions when the
adjacency is closed) -/

theorem shapeEq_hopRelax (mh nh : Int) (ns : List String) :
    ∀ (m : NodeMap) (v : List String) (q : List (String × Int)),
      (∀ x ∈ ns, (mfind m x).isSome = true) →
      ShapeEq m (hopRelaxNeighbors mh nh ns m v q).1 := by
  induction ns with
  | nil =>
    intro m v q _
    rw [hopRelax_nil]
    exact shapeEq_refl m
  | cons n rest ih =>
    intro m v q hns
    have hn : (mfind m n).isSome = true := hns n (List.mem_cons_self _ _)
    have hrest : ∀ x ∈ rest, (mfind m x).isSome = true :=
      fun x hx => hns x (List.mem_cons.mpr (Or.inr hx))
    by_cases hv : n ∈ v
    · cases hc : decide ((readHopIns m n).1 > nh) with
      | true =>
        rw [hopRelax_cons_improve mh nh n rest m v q hv hc,
          readHopIns_present m n hn]
        have h1 : ShapeEq m (setHop m n nh) := shapeEq_setHop m n nh hn
        refine shapeEq_trans h1 (ih _ _ _ ?_)
        intro x hx
        rw [shapeEq_isSome h1 x]
        exact hrest x hx
      | false =>
        rw [hopRelax_cons_skip mh nh n rest m v q hv hc,
          readHopIns_present m n hn]
        exact ih _ _ _ hrest
    · rw [hopRelax_cons_fresh mh nh n rest m v q hv]
      have h1 : ShapeEq m (setHop m n nh) := shapeEq_setHop m n nh hn
      refine shapeEq_trans h1 (ih _ _ _ ?_)
      intro x hx
      rw [shapeEq_isSome h1 x]
      exact hrest x hx

theorem shapeEq_hopBfs (mh : Int) (fuel : Nat) :
    ∀ (m : NodeMap) (v : List String) (q : List (String × Int)),
      Closed m → ShapeEq m (hopBfs mh fuel m v q) := by
  induction fuel with
  | zero =>
    intro m v q _
    exact shapeEq_refl m
  | succ fuel ih =>
    intro m v q hc
    cases q with
    | nil => exact shapeEq_refl m
    | cons p rest =>
      obtain ⟨cur, ch⟩ := p
      rw [hopBfs_cons]
      cases hcur : mfind m cur with
      | none =>
        simp only [hcur, Option.getD_none]
        have hnil : defaultNode.neighbors = [] := rfl
        rw [hnil, hopRelax_nil]
        exact ih m v rest hc
      | some curNode =>
        simp only [hcur, Option.getD_some]
        have hns : ∀ x ∈ curNode.neighbors, (mfind m x).isSome = true :=
          fun x hx => hc cur curNode hcur x hx
        have h1 : ShapeEq m
            (hopRelaxNeighbors mh (ch + 1) curNode.neighbors m v rest).1 :=
          shapeEq_hopRelax mh (ch + 1) curNode.neighbors m v rest hns
        exact shapeEq_trans h1 (ih _ _ _ (closed_of_shapeEq hc h1))

/-! ### The reset pass and `updateHopCounts` itself -/

theorem mfind_reset (m : NodeMap) (gw : String) (mh : Int) (k : String) :
    mfind (m.map (fun p =>
      if p.1 = gw then (p.1, { p.2 with hopCountToGateway := 0 })
      else (p.1, { p.2 with hopCountToGateway := mh }))) k =
      (mfind m k).map (fun n =>
        if k = gw then { n with hopCountToGateway := 0 }
        else { n with hopCountToGateway := mh }) := by
  induction m with
  | nil => simp [mfind]
  | cons p rest ih =>
    obtain ⟨k0, v0⟩ := p
    simp only [List.map_cons]
    by_cases hgw : k0 = gw
    · subst hgw
      rw [if_pos rfl]
      by_cases hk0 : k0 = k
      · subst hk0
        simp [mfind]
      · simpa [mfind, hk0] using ih
    · rw [if_neg hgw]
      by_cases hk0 : k0 = k
      · subst hk0
        simp [mfind, hgw]
      · simpa [mfind, hk0] using ih

theorem shapeEq_reset (m : NodeMap) (gw : String) (mh : Int) :
    ShapeEq m (m.map (fun p =>
      if p.1 = gw then (p.1, { p.2 with hopCountToGateway := 0 })
      else (p.1, { p.2 with hopCountToGateway := mh }))) := by
  intro k
  rw [mfind_reset]
  cases mfind m k with
  | none => rfl
  | some n =>
    by_cases hgw : k = gw <;> simp [hgw, shapeOf]

theorem flagSub_reset (m : NodeMap) (gw : String) (mh : Int) :
    FlagSub (m.map (fun p =>
      if p.1 = gw then (p.1, { p.2 with hopCountToGateway := 0 })
      else (p.1, { p.2 with hopCountToGateway := mh }))) m := by
  intro k n2 hfind hflag
  rw [mfind_reset] at hfind
  cases hm : mfind m k with
  | none => rw [hm] at hfind; simp at hfind
  | some n =>
    rw [hm] at hfind
    by_cases hgw : k = gw <;>
      simp only [hgw, if_true, if_false, Option.map_some', Option.some.injEq] at hfind <;>
      rw [← hfind] at hflag <;>
      exact ⟨n, rfl, hflag⟩

theorem uhc_gatewayId (net : MeshNetwork) :
    (updateHopCounts net).gatewayId = net.gatewayId := by
  unfold updateHopCounts
  by_cases h : net.gatewayId = "" <;> simp [h]

theorem uhc_maxHops (net : MeshNetwork) :
    (updateHopCounts net).maxHops = net.maxHops := by
  unfold updateHopCounts
  by_cases h : net.gatewayId = "" <;> simp [h]

theorem flagSub_uhc (net : MeshNetwork) :
    FlagSub (updateHopCounts net).nodes net.nodes := by
  unfold updateHopCounts
  by_cases h : net.gatewayId = ""
  · simp only [h, if_true]
    exact flagSub_refl _
  · simp only [h, if_false, Bool.false_eq_true]
    exact flagSub_trans (flagSub_hopBfs _ _ _ _ _)
      (flagSub_reset net.nodes net.gatewayId net.maxHops)

theorem shapeEq_uhc (net : MeshNetwork) (hc : Closed net.nodes) :
    ShapeEq net.nodes (updateHopCounts net).nodes := by
  unfold updateHopCounts
  by_cases h : net.gatewayId = ""
  · simp only [h, if_true]
    exact shapeEq_refl _
  · simp only [h, if_false, Bool.false_eq_true]
    have h1 : ShapeEq net.nodes (net.nodes.map (fun p =>
        if p.1 = net.gatewayId then (p.1, { p.2 with hopCountToGateway := 0 })
        else (p.1, { p.2 with hopCountToGateway := net.maxHops }))) :=
      shapeEq_reset net.nodes net.gatewayId net.maxHops
    exact shapeEq_trans h1 (shapeEq_hopBfs _ _ _ _ _ (closed_of_shapeEq hc h1))

/-! ### The gateway keeps hop count 0 through the BFS -/

theorem hopRelax_gw (mh nh : Int) (gw : String) (hnh : 1 ≤ nh) (ns : List String) :
    ∀ (m : NodeMap) (v : List String) (q : List (String × Int)) (n : MeshNode),
      mfind m gw = some n → n.hopCountToGateway = 0 → gw ∈ v →
      (∀ p ∈ q, 0 ≤ p.2) →
      mfind (hopRelaxNeighbors mh nh ns m v q).1 gw = some n ∧
      gw ∈ (hopRelaxNeighbors mh nh ns m v q).2.1 ∧
      (∀ p ∈ (hopRelaxNeighbors mh nh ns m v q).2.2, 0 ≤ p.2) := by
  induction ns with
  | nil =>
    intro m v q n hm h0 hv hq
    rw [hopRelax_nil]
    exact ⟨hm, hv, hq⟩
  | cons x rest ih =>
    intro m v q n hm h0 hv hq
    have hqpush : ∀ p ∈ (if nh < mh then q ++ [(x, nh)] else q), (0:Int) ≤ p.2 := by
      intro p hp
      by_cases hlt : nh < mh
      · rw [if_pos hlt] at hp
        rcases List.mem_append.mp hp with hp | hp
        · exact hq p hp
        · rw [List.mem_singleton] at hp
          subst hp
          simpa using le_trans (by omega) hnh
      · rw [if_neg hlt] at hp
        exact hq p hp
    by_cases hxv : x ∈ v
    · by_cases hxgw : x = gw
      · subst hxgw
        have hr1 : (readHopIns m x).1 = n.hopCountToGateway := by
          unfold readHopIns
          rw [hm]
        have hrc : decide ((readHopIns m x).1 > nh) = false := by
          rw [hr1, h0]
          simp
          omega
        rw [hopRelax_cons_skip mh nh x rest m v q hxv hrc,
          readHopIns_present m x (by simp [hm])]
        exact ih m v q n hm h0 hv hq
      · cases hc : decide ((readHopIns m x).1 > nh) with
        | false =>
          rw [hopRelax_cons_skip mh nh x rest m v q hxv hc]
          have hm2 : mfind (readHopIns m x).2 gw = some n := by
            rw [mfind_readHopIns]
            simp [hxgw, hm]
          exact ih _ v q n hm2 h0 hv hq
        | true =>
          rw [hopRelax_cons_improve mh nh x rest m v q hxv hc]
          have hm2 : mfind (setHop (readHopIns m x).2 x nh) gw = some n := by
            rw [mfind_setHop, if_neg hxgw, mfind_readHopIns]
            simp [hxgw, hm]
          exact ih _ v _ n hm2 h0 hv hqpush
    · by_cases hxgw : x = gw
      · exact absurd (hxgw ▸ hv) hxv
      · rw [hopRelax_cons_fresh mh nh x rest m v q hxv]
        have hm2 : mfind (setHop m x nh) gw = some n := by
          rw [mfind_setHop]
          simp [hxgw, hm]
        exact ih _ _ _ n hm2 h0 (List.mem_cons.mpr (Or.inr hv)) hqpush

theorem hopBfs_gw (mh : Int) (gw : String) (fuel : Nat) :
    ∀ (m : NodeMap) (v : List String) (q : List (String × Int)) (n : MeshNode),
      mfind m gw = some n → n.hopCountToGateway = 0 → gw ∈ v →
      (∀ p ∈ q, 0 ≤ p.2) →
      mfind (hopBfs mh fuel m v q) gw = some n := by
  induction fuel with
  | zero =>
    intro m v q n hm _ _ _
    exact hm
  | succ fuel ih =>
    intro m v q n hm h0 hv hq
    cases q with
    | nil => exact hm
    | cons p rest =>
      obtain ⟨cur, ch⟩ := p
      rw [hopBfs_cons]
      have hch : (0:Int) ≤ ch := hq (cur, ch) (List.mem_cons_self _ _)
      have hrest : ∀ p ∈ rest, (0:Int) ≤ p.2 :=
        fun p hp => hq p (List.mem_cons.mpr (Or.inr hp))
      obtain ⟨h1, h2, h3⟩ :=
        hopRelax_gw mh (ch + 1) gw (by omega)
          ((mfind m cur).getD defaultNode).neighbors m v rest n hm h0 hv hrest
      exact ih _ _ _ n h1 h0 h2 h3

theorem uhc_gw (net : MeshNetwork) (n : MeshNode) (hne : ¬ net.gatewayId = "")
    (hn : mfind net.nodes net.gatewayId = some n) :
    mfind (updateHopCounts net).nodes net.gatewayId =
      some { n with hopCountToGateway := 0 } := by
  unfold updateHopCounts
  rw [if_neg hne]
  have hreset : mfind (net.nodes.map (fun p =>
      if p.1 = net.gatewayId then (p.1, { p.2 with hopCountToGateway := 0 })
      else (p.1, { p.2 with hopCountToGateway := net.maxHops })))
      net.gatewayId = some { n with hopCountToGateway := 0 } := by
    rw [mfind_reset]
    simp [hn]
  refine hopBfs_gw net.maxHops net.gatewayId _ _ _ _ _ hreset rfl
    (List.mem_singleton.mpr rfl) ?_
  intro p hp
  rw [List.mem_singleton] at hp
  subst hp
  simp

/-! ### Per-operation helpers -/

theorem mupdate_isSome (m : NodeMap) (k : String) (f : MeshNode → MeshNode)
    (q : String) :
    (mfind (mupdate m k f) q).isSome = (mfind m q).isSome := by
  rw [mfind_mupdate]
  by_cases h : k = q
  · subst h
    cases mfind m k <;> simp
  · rw [if_neg h]

theorem mem_pushNb (who : String) (n : MeshNode) (x : String) :
    x ∈ (pushNb who n).neighbors ↔ x ∈ n.neighbors ∨ x = who := by
  unfold pushNb
  by_cases h : who ∈ n.neighbors
  · rw [if_pos h]
    constructor
    · exact Or.inl
    · rintro (hx | hx)
      · exact hx
      · exact hx ▸ h
  · rw [if_neg h]
    simp

theorem mem_pruneN (dev : String) (n : MeshNode) (x : String) :
    x ∈ (pruneN dev n).neighbors ↔ x ∈ n.neighbors ∧ ¬ x = dev := by
  unfold pruneN
  simp [List.mem_filter]

theorem mupdate_flagView (m : NodeMap) (k : String) (f : MeshNode → MeshNode)
    (hf : ∀ n, (f n).isGateway = n.isGateway) (q : String) :
    (mfind (mupdate m k f) q).map MeshNode.isGateway =
      (mfind m q).map MeshNode.isGateway := by
  rw [mfind_mupdate]
  by_cases h : k = q
  · subst h
    cases mfind m k <;> simp [hf]
  · rw [if_neg h]

/-! ### `addNeighbor` characterization -/

theorem addNb_memAdj (m : NodeMap) (a b : String)
    (ha : (mfind m a).isSome = true) (hb : (mfind m b).isSome = true)
    (k x : String) :
    memAdj (mupdate (mupdate m a (pushNb b)) b (pushNb a)) k x ↔
      (memAdj m k x ∨ (k = a ∧ x = b) ∨ (k = b ∧ x = a)) := by
  obtain ⟨na, hna⟩ := Option.isSome_iff_exists.mp ha
  obtain ⟨nb, hnb⟩ := Option.isSome_iff_exists.mp hb
  unfold memAdj
  rw [mfind_mupdate]
  by_cases hbk : b = k
  · subst hbk
    rw [if_pos rfl, mfind_mupdate]
    by_cases hab : a = b
    · subst hab
      rw [if_pos rfl, hna]
      simp only [Option.map_some']
      constructor
      · rintro ⟨n2, hn2, hx⟩
        injection hn2 with he
        rw [← he, mem_pushNb, mem_pushNb] at hx
        rcases hx with (hx | hx) | hx
        · exact Or.inl ⟨na, rfl, hx⟩
        · exact Or.inr (Or.inl ⟨by simp, hx⟩)
        · exact Or.inr (Or.inl ⟨by simp, hx⟩)
      · rintro (⟨n0, hn0, hx⟩ | ⟨_, hx⟩ | ⟨_, hx⟩)
        · injection hn0 with he
          subst he
          exact ⟨_, rfl, by rw [mem_pushNb, mem_pushNb]; exact Or.inl (Or.inl hx)⟩
        · exact ⟨_, rfl, by rw [mem_pushNb, mem_pushNb]; exact Or.inl (Or.inr hx)⟩
        · exact ⟨_, rfl, by rw [mem_pushNb, mem_pushNb]; exact Or.inl (Or.inr hx)⟩
    · rw [if_neg hab, hnb]
      simp only [Option.map_some']
      constructor
      · rintro ⟨n2, hn2, hx⟩
        injection hn2 with he
        rw [← he, mem_pushNb] at hx
        rcases hx with hx | hx
        · exact Or.inl ⟨nb, rfl, hx⟩
        · exact Or.inr (Or.inr ⟨by simp, hx⟩)
      · rintro (⟨n0, hn0, hx⟩ | ⟨hk, _⟩ | ⟨_, hx⟩)
        · injection hn0 with he
          subst he
          exact ⟨_, rfl, by rw [mem_pushNb]; exact Or.inl hx⟩
        · exact absurd hk.symm hab
        · exact ⟨_, rfl, by rw [mem_pushNb]; exact Or.inr hx⟩
  · rw [if_neg hbk, mfind_mupdate]
    by_cases hak : a = k
    · subst hak
      rw [if_pos rfl, hna]
      simp only [Option.map_some']
      constructor
      · rintro ⟨n2, hn2, hx⟩
        injection hn2 with he
        rw [← he, mem_pushNb] at hx
        rcases hx with hx | hx
        · exact Or.inl ⟨na, rfl, hx⟩
        · exact Or.inr (Or.inl ⟨by simp, hx⟩)
      · rintro (⟨n0, hn0, hx⟩ | ⟨_, hx⟩ | ⟨hk, _⟩)
        · injection hn0 with he
          subst he
          exact ⟨_, rfl, by rw [mem_pushNb]; exact Or.inl hx⟩
        · exact ⟨_, rfl, by rw [mem_pushNb]; exact Or.inr hx⟩
        · exact absurd hk.symm hbk
    · rw [if_neg hak]
      constructor
      · rintro ⟨n2, hn2, hx⟩
        exact Or.inl ⟨n2, hn2, hx⟩
      · rintro (⟨n0, hn0, hx⟩ | ⟨hk, _⟩ | ⟨hk, _⟩)
        · exact ⟨n0, hn0, hx⟩
        · exact absurd hk.symm hak
        · exact absurd hk.symm hbk

/-! ### `removeDevice` characterization -/

theorem removeDevice_mfind (m : NodeMap) (id : String) (node : MeshNode)
    (q : String) :
    mfind (merase (node.neighbors.foldl
      (fun acc nb => mupdate acc nb (pruneN id)) m) id) q =
      if q = id then none
      else if q ∈ node.neighbors then (mfind m q).map (pruneN id)
      else mfind m q := by
  rw [mfind_merase, mfind_foldPrune]

theorem removeDevice_memAdj (m : NodeMap) (id : String) (node : MeshNode)
    (hnode : mfind m id = some node) (hsym : Sym m) (k x : String) :
    memAdj (merase (node.neighbors.foldl
      (fun acc nb => mupdate acc nb (pruneN id)) m) id) k x ↔
      (memAdj m k x ∧ ¬ k = id ∧ ¬ x = id) := by
  unfold memAdj
  rw [removeDevice_mfind]
  by_cases hk : k = id
  · simp [hk]
  · rw [if_neg hk]
    by_cases hkL : k ∈ node.neighbors
    · rw [if_pos hkL]
      cases hm : mfind m k with
      | none => simp [hk]
      | some n =>
        simp only [Option.map_some']
        constructor
        · rintro ⟨n2, hn2, hx⟩
          injection hn2 with he
          rw [← he, mem_pruneN] at hx
          exact ⟨⟨n, rfl, hx.1⟩, hk, hx.2⟩
        · rintro ⟨⟨n0, hn0, hx⟩, _, hxid⟩
          injection hn0 with he
          subst he
          exact ⟨_, rfl, by rw [mem_pruneN]; exact ⟨hx, hxid⟩⟩
    · rw [if_neg hkL]
      cases hm : mfind m k with
      | none => simp [hk]
      | some n =>
        constructor
        · rintro ⟨n2, hn2, hx⟩
          injection hn2 with he
          subst he
          have hxid : ¬ x = id := by
            intro hxeq
            subst hxeq
            obtain ⟨node0, hnode0, hmem⟩ := hsym k x ⟨n, hm, hx⟩
            rw [hnode] at hnode0
            injection hnode0 with he2
            subst he2
            exact hkL hmem
          exact ⟨⟨n, rfl, hx⟩, hk, hxid⟩
        · rintro ⟨⟨n0, hn0, hx⟩, _, _⟩
          exact ⟨n0, hn0, hx⟩

/-! ### Updates that do not touch neighbor lists -/

theorem memAdj_mupdate_nbEq (m : NodeMap) (k : String) (f : MeshNode → MeshNode)
    (hf : ∀ n, (f n).neighbors = n.neighbors) (p x : String) :
    memAdj (mupdate m k f) p x ↔ memAdj m p x := by
  unfold memAdj
  rw [mfind_mupdate]
  by_cases h : k = p
  · subst h
    cases hm : mfind m k with
    | none => simp
    | some n =>
      simp only [Option.map_some']
      constructor
      · rintro ⟨n2, hn2, hx⟩
        injection hn2 with he
        rw [← he, hf] at hx
        exact ⟨n, rfl, hx⟩
      · rintro ⟨n0, hn0, hx⟩
        injection hn0 with he
        subst he
        exact ⟨f n, rfl, by rw [hf]; exact hx⟩
  · rw [if_neg h]

theorem pushNb_isGateway (who : String) (n : MeshNode) :
    (pushNb who n).isGateway = n.isGateway := by
  unfold pushNb
  by_cases h : who ∈ n.neighbors <;> simp [h]

theorem pruneN_isGateway (dev : String) (n : MeshNode) :
    (pruneN dev n).isGateway = n.isGateway := rfl

/-! ### Closure and symmetry are preserved by every operation -/

theorem topo_insert_fresh (m : NodeMap) (id : String) (res : NodeMap)
    (nv : MeshNode) (habs : mfind m id = none)
    (hchar : ∀ q, mfind res q = if id = q then some nv else mfind m q)
    (hnb : nv.neighbors = []) (hc : Closed m) (hs : Sym m) :
    Closed res ∧ Sym res := by
  constructor
  · intro k n hfind b hb
    rw [hchar] at hfind
    by_cases hk : id = k
    · rw [if_pos hk] at hfind
      injection hfind with he
      subst he
      rw [hnb] at hb
      simp at hb
    · rw [if_neg hk] at hfind
      have hsome := hc k n hfind b hb
      rw [hchar b]
      by_cases hbid : id = b
      · simp [hbid]
      · rw [if_neg hbid]
        exact hsome
  · intro p r hadj
    obtain ⟨n, hfind, hr⟩ := hadj
    rw [hchar] at hfind
    by_cases hp : id = p
    · rw [if_pos hp] at hfind
      injection hfind with he
      subst he
      rw [hnb] at hr
      simp at hr
    · rw [if_neg hp] at hfind
      obtain ⟨nb0, hnb2, hpmem⟩ := hs p r ⟨n, hfind, hr⟩
      have hrid : ¬ id = r := by
        intro h
        rw [← h, habs] at hnb2
        cases hnb2
      exact ⟨nb0, by rw [hchar, if_neg hrid]; exact hnb2, hpmem⟩

theorem topo_addDevice (net : MeshNetwork) (id : String) (g : Bool)
    (hc : Closed net.nodes) (hs : Sym net.nodes) :
    Closed (addDevice net id g).2.nodes ∧ Sym (addDevice net id g).2.nodes := by
  unfold addDevice
  by_cases hpres : (mfind net.nodes id).isSome = true
  · simp only [hpres, if_true]
    exact ⟨hc, hs⟩
  · have habs : mfind net.nodes id = none :=
      Option.not_isSome_iff_eq_none.mp (by simpa using hpres)
    simp only [hpres, if_false, Bool.false_eq_true]
    cases g with
    | false =>
      simp only [if_false, Bool.false_eq_true]
      refine topo_insert_fresh net.nodes id _ ⟨id, [], net.maxHops, false⟩ habs
        (fun q => ?_) rfl hc hs
      rw [mfind_massign]
    | true =>
      simp only [if_true]
      refine topo_insert_fresh net.nodes id _
        ⟨id, [], 0, true⟩ habs (fun q => ?_) rfl hc hs
      rw [mfind_setHop]
      by_cases hq : id = q
      · subst hq
        rw [if_pos rfl, if_pos rfl, mfind_massign, if_pos rfl]
        simp
      · rw [if_neg hq, if_neg hq, mfind_massign, if_neg hq]

theorem topo_mupdate_nbEq (m : NodeMap) (k : String) (f : MeshNode → MeshNode)
    (hf : ∀ n, (f n).neighbors = n.neighbors) (hc : Closed m) (hs : Sym m) :
    Closed (mupdate m k f) ∧ Sym (mupdate m k f) := by
  constructor
  · intro k0 n hfind b hb
    have hadj := (memAdj_mupdate_nbEq m k f hf k0 b).mp ⟨n, hfind, hb⟩
    obtain ⟨n0, hn0, hb0⟩ := hadj
    rw [mupdate_isSome]
    exact hc k0 n0 hn0 b hb0
  · intro p r hadj
    rw [memAdj_mupdate_nbEq m k f hf] at hadj ⊢
    exact hs p r hadj

theorem closed_addNb (m : NodeMap) (a b : String)
    (ha : (mfind m a).isSome = true) (hb : (mfind m b).isSome = true)
    (hc : Closed m) :
    Closed (mupdate (mupdate m a (pushNb b)) b (pushNb a)) := by
  intro k n hfind b0 hb0
  have hadj := (addNb_memAdj m a b ha hb k b0).mp ⟨n, hfind, hb0⟩
  have hsome : (mfind m b0).isSome = true := by
    rcases hadj with hadj | ⟨_, hx⟩ | ⟨_, hx⟩
    · obtain ⟨n0, hn0, hb0m⟩ := hadj
      exact hc k n0 hn0 b0 hb0m
    · subst hx
      exact hb
    · subst hx
      exact ha
  rw [mupdate_isSome, mupdate_isSome]
  exact hsome

theorem sym_addNb (m : NodeMap) (a b : String)
    (ha : (mfind m a).isSome = true) (hb : (mfind m b).isSome = true)
    (hs : Sym m) :
    Sym (mupdate (mupdate m a (pushNb b)) b (pushNb a)) := by
  intro p r hadj
  rw [addNb_memAdj m a b ha hb] at hadj ⊢
  rcases hadj with h | ⟨hp, hr⟩ | ⟨hp, hr⟩
  · exact Or.inl (hs p r h)
  · exact Or.inr (Or.inr ⟨hr, hp⟩)
  · exact Or.inr (Or.inl ⟨hr, hp⟩)

theorem topo_addNeighbor (net : MeshNetwork) (a b : String)
    (hc : Closed net.nodes) (hs : Sym net.nodes) :
    Closed (addNeighbor net a b).2.nodes ∧ Sym (addNeighbor net a b).2.nodes := by
  unfold addNeighbor
  by_cases hguard : ((mfind net.nodes a).isNone || (mfind net.nodes b).isNone) = true
  · simp only [hguard, if_true]
    exact ⟨hc, hs⟩
  · rw [if_neg hguard]
    have ha : (mfind net.nodes a).isSome = true := by
      cases hopt : mfind net.nodes a with
      | none => exact absurd (by simp [hopt]) hguard
      | some _ => simp
    have hb : (mfind net.nodes b).isSome = true := by
      cases hopt : mfind net.nodes b with
      | none => exact absurd (by simp [hopt, Bool.or_true]) hguard
      | some _ => simp
    have hc2 := closed_addNb net.nodes a b ha hb hc
    have hs2 := sym_addNb net.nodes a b ha hb hs
    unfold updateRoutingTable
    exact ⟨closed_of_shapeEq hc2 (shapeEq_uhc _ hc2),
      sym_of_shapeEq hs2 (shapeEq_uhc _ hc2)⟩

theorem closed_removeNodes (m : NodeMap) (id : String) (node : MeshNode)
    (hnode : mfind m id = some node) (hc : Closed m) (hs : Sym m) :
    Closed (merase (node.neighbors.foldl
      (fun acc nb => mupdate acc nb (pruneN id)) m) id) := by
  intro k n hfind b0 hb0
  have hadj := (removeDevice_memAdj m id node hnode hs k b0).mp ⟨n, hfind, hb0⟩
  obtain ⟨⟨n0, hn0, hb0m⟩, hk, hb0id⟩ := hadj
  have hsome := hc k n0 hn0 b0 hb0m
  rw [removeDevice_mfind m id node b0, if_neg hb0id]
  by_cases hbL : b0 ∈ node.neighbors
  · rw [if_pos hbL]
    simpa using hsome
  · rw [if_neg hbL]
    exact hsome

theorem sym_removeNodes (m : NodeMap) (id : String) (node : MeshNode)
    (hnode : mfind m id = some node) (hs : Sym m) :
    Sym (merase (node.neighbors.foldl
      (fun acc nb => mupdate acc nb (pruneN id)) m) id) := by
  intro p r hadj
  rw [removeDevice_memAdj m id node hnode hs] at hadj ⊢
  obtain ⟨hm, hp, hr⟩ := hadj
  exact ⟨hs p r hm, hr, hp⟩

theorem topo_removeDevice (net : MeshNetwork) (id : String)
    (hc : Closed net.nodes) (hs : Sym net.nodes) :
    Closed (removeDevice net id).2.nodes ∧ Sym (removeDevice net id).2.nodes := by
  unfold removeDevice
  cases hnode : mfind net.nodes id with
  | none => exact ⟨hc, hs⟩
  | some node =>
    have hc2 := closed_removeNodes net.nodes id node hnode hc hs
    have hs2 := sym_removeNodes net.nodes id node hnode hs
    unfold updateRoutingTable
    exact ⟨closed_of_shapeEq hc2 (shapeEq_uhc _ hc2),
      sym_of_shapeEq hs2 (shapeEq_uhc _ hc2)⟩

theorem topo_setGateway (net : MeshNetwork) (id : String)
    (hc : Closed net.nodes) (hs : Sym net.nodes) :
    Closed (setGateway net id).nodes ∧ Sym (setGateway net id).nodes := by
  unfold setGateway
  by_cases hpres : (mfind net.nodes id).isSome = true
  · rw [if_pos hpres]
    have h1 : Closed (if net.gatewayId ≠ "" then
          mupdate net.nodes net.gatewayId (fun n => { n with isGateway := false })
        else net.nodes) ∧
        Sym (if net.gatewayId ≠ "" then
          mupdate net.nodes net.gatewayId (fun n => { n with isGateway := false })
        else net.nodes) := by
      by_cases hgw : net.gatewayId ≠ ""
      · rw [if_pos hgw]
        exact topo_mupdate_nbEq net.nodes net.gatewayId _ (fun n => rfl) hc hs
      · rw [if_neg hgw]
        exact ⟨hc, hs⟩
    obtain ⟨hc1, hs1⟩ := h1
    obtain ⟨hc2, hs2⟩ := topo_mupdate_nbEq _ id
      (fun n => { n with isGateway := true, hopCountToGateway := 0 })
      (fun n => rfl) hc1 hs1
    exact ⟨closed_of_shapeEq hc2 (shapeEq_uhc _ hc2),
      sym_of_shapeEq hs2 (shapeEq_uhc _ hc2)⟩
  · rw [if_neg hpres]
    exact ⟨hc, hs⟩

theorem topo_applyOp (net : MeshNetwork) (op : MeshOp)
    (hc : Closed net.nodes) (hs : Sym net.nodes) :
    Closed (applyOp net op).nodes ∧ Sym (applyOp net op).nodes := by
  cases op with
  | addDevice id g => exact topo_addDevice net id g hc hs
  | addNeighbor a b => exact topo_addNeighbor net a b hc hs
  | removeDevice id => exact topo_removeDevice net id hc hs
  | setGateway id => exact topo_setGateway net id hc hs

theorem topo_runOps (ops : List MeshOp) :
    ∀ net : MeshNetwork, Closed net.nodes → Sym net.nodes →
      Closed (runOps ops net).nodes ∧ Sym (runOps ops net).nodes := by
  induction ops with
  | nil =>
    intro net hc hs
    exact ⟨hc, hs⟩
  | cons op ops ih =>
    intro net hc hs
    obtain ⟨hc2, hs2⟩ := topo_applyOp net op hc hs
    exact ih (applyOp net op) hc2 hs2

/-- C7: after any sequence of mesh operations starting from a fresh
`MeshNetwork`, adjacency is symmetric: `b` is listed among the neighbors of
a node `a` present in the topology iff `a` is listed among the neighbors of
`b`. -/
theorem c7_adjacency_symmetric (ops : List MeshOp) (mh : Int) (a b : String) :
    memAdj (runOps ops (MeshNetwork.mk0 mh)).nodes a b ↔
      memAdj (runOps ops (MeshNetwork.mk0 mh)).nodes b a := by
  have hinit : Closed (MeshNetwork.mk0 mh).nodes ∧ Sym (MeshNetwork.mk0 mh).nodes := by
    constructor
    · intro k n hfind
      cases hfind
    · intro p r hadj
      obtain ⟨n, hfind, _⟩ := hadj
      cases hfind
  obtain ⟨_, hs⟩ := topo_runOps ops (MeshNetwork.mk0 mh) hinit.1 hinit.2
  exact ⟨hs a b, hs b a⟩

/-! ### Gateway-flag and key invariants (C2) -/

theorem flagSub_mupdate (m : NodeMap) (k : String) (f : MeshNode → MeshNode)
    (hf : ∀ n, (f n).isGateway = n.isGateway) : FlagSub (mupdate m k f) m := by
  intro q n2 hfind hflag
  rw [mfind_mupdate] at hfind
  by_cases h : k = q
  · subst h
    rw [if_pos rfl] at hfind
    cases hm : mfind m k with
    | none =>
      rw [hm] at hfind
      cases hfind
    | some n =>
      rw [hm, Option.map_some'] at hfind
      injection hfind with he
      rw [← he, hf] at hflag
      exact ⟨n, rfl, hflag⟩
  · rw [if_neg h] at hfind
    exact ⟨n2, hfind, hflag⟩

theorem keysNE_mupdate (m : NodeMap) (k : String) (f : MeshNode → MeshNode)
    (h : KeysNE m) : KeysNE (mupdate m k f) := by
  unfold KeysNE at *
  have h2 := mupdate_isSome m k f ""
  rw [h] at h2
  exact Option.not_isSome_iff_eq_none.mp (by simp [h2])

/-- Preservation of the whole mesh invariant by one restricted call. -/
theorem meshInv_applyOp (net : MeshNetwork) (op : MeshOp)
    (hok : opOKb op = true) (hinv : MeshInv net) : MeshInv (applyOp net op) := by
  obtain ⟨hc, hs, hk, hf⟩ := hinv
  obtain ⟨hc2, hs2⟩ := topo_applyOp net op hc hs
  refine ⟨hc2, hs2, ?_, ?_⟩ <;> clear hc2 hs2
  case _ =>
    -- KeysNE
    cases op with
    | addDevice id g =>
      simp only [opOKb, Bool.and_eq_true, Bool.not_eq_true', bne_iff_ne] at hok
      obtain ⟨hg, hid⟩ := hok
      subst hg
      show KeysNE (addDevice net id false).2.nodes
      unfold addDevice
      by_cases hpres : (mfind net.nodes id).isSome = true
      · simp only [hpres, if_true]
        exact hk
      · simp only [hpres, if_false, Bool.false_eq_true]
        unfold KeysNE
        rw [mfind_massign, if_neg hid]
        exact hk
    | addNeighbor a b =>
      show KeysNE (addNeighbor net a b).2.nodes
      unfold addNeighbor
      by_cases hguard : ((mfind net.nodes a).isNone || (mfind net.nodes b).isNone) = true
      · simp only [hguard, if_true]
        exact hk
      · rw [if_neg hguard]
        have ha : (mfind net.nodes a).isSome = true := by
          cases hopt : mfind net.nodes a with
          | none => exact absurd (by simp [hopt]) hguard
          | some _ => simp
        have hb : (mfind net.nodes b).isSome = true := by
          cases hopt : mfind net.nodes b with
          | none => exact absurd (by simp [hopt, Bool.or_true]) hguard
          | some _ => simp
        have hk2 := keysNE_mupdate _ b (pushNb a)
          (keysNE_mupdate net.nodes a (pushNb b) hk)
        have hcl := closed_addNb net.nodes a b ha hb hc
        unfold updateRoutingTable
        exact keysNE_of_shapeEq hk2 (shapeEq_uhc _ hcl)
    | removeDevice id =>
      show KeysNE (removeDevice net id).2.nodes
      unfold removeDevice
      cases hnode : mfind net.nodes id with
      | none => exact hk
      | some node =>
        have hk2 : KeysNE (merase (node.neighbors.foldl
            (fun acc nb => mupdate acc nb (pruneN id)) net.nodes) id) := by
          unfold KeysNE
          rw [removeDevice_mfind net.nodes id node ""]
          by_cases h1 : ("" : String) = id
          · rw [if_pos h1]
          · rw [if_neg h1]
            by_cases h2 : ("" : String) ∈ node.neighbors
            · rw [if_pos h2, hk]
              rfl
            · rw [if_neg h2]
              exact hk
        have hcl := closed_removeNodes net.nodes id node hnode hc hs
        unfold updateRoutingTable
        exact keysNE_of_shapeEq hk2 (shapeEq_uhc _ hcl)
    | setGateway id =>
      show KeysNE (setGateway net id).nodes
      unfold setGateway
      by_cases hpres : (mfind net.nodes id).isSome = true
      · rw [if_pos hpres]
        have hk1 : KeysNE (if net.gatewayId ≠ "" then
            mupdate net.nodes net.gatewayId (fun n => { n with isGateway := false })
            else net.nodes) := by
          by_cases hgw : net.gatewayId ≠ ""
          · rw [if_pos hgw]
            exact keysNE_mupdate _ _ _ hk
          · rw [if_neg hgw]
            exact hk
        have hk2 := keysNE_mupdate _ id
          (fun n => { n with isGateway := true, hopCountToGateway := 0 }) hk1
        have h1 : Closed (if net.gatewayId ≠ "" then
            mupdate net.nodes net.gatewayId (fun n => { n with isGateway := false })
            else net.nodes) ∧ Sym (if net.gatewayId ≠ "" then
            mupdate net.nodes net.gatewayId (fun n => { n with isGateway := false })
            else net.nodes) := by
          by_cases hgw : net.gatewayId ≠ ""
          · rw [if_pos hgw]
            exact topo_mupdate_nbEq net.nodes net.gatewayId _ (fun n => rfl) hc hs
          · rw [if_neg hgw]
            exact ⟨hc, hs⟩
        have hcl := (topo_mupdate_nbEq _ id
          (fun n => { n with isGateway := true, hopCountToGateway := 0 })
          (fun n => rfl) h1.1 h1.2).1
        exact keysNE_of_shapeEq hk2 (shapeEq_uhc _ hcl)
      · rw [if_neg hpres]
        exact hk
  case _ =>
    -- FlagInv
    cases op with
    | addDevice id g =>
      simp only [opOKb, Bool.and_eq_true, Bool.not_eq_true', bne_iff_ne] at hok
      obtain ⟨hg, hid⟩ := hok
      subst hg
      show FlagInv (addDevice net id false).2
      unfold addDevice
      by_cases hpres : (mfind net.nodes id).isSome = true
      · simp only [hpres, if_true]
        exact hf
      · simp only [hpres, if_false, Bool.false_eq_true]
        intro k n hfind hflag
        rw [mfind_massign] at hfind
        by_cases hq : id = k
        · rw [if_pos hq] at hfind
          injection hfind with he
          rw [← he] at hflag
          cases hflag
        · rw [if_neg hq] at hfind
          exact hf k n hfind hflag
    | addNeighbor a b =>
      show FlagInv (addNeighbor net a b).2
      unfold addNeighbor
      by_cases hguard : ((mfind net.nodes a).isNone || (mfind net.nodes b).isNone) = true
      · simp only [hguard, if_true]
        exact hf
      · rw [if_neg hguard]
        unfold updateRoutingTable
        intro k n hfind hflag
        have hsub : FlagSub (updateHopCounts { net with
            nodes := mupdate (mupdate net.nodes a (pushNb b)) b (pushNb a) }).nodes
            net.nodes := by
          exact flagSub_trans (flagSub_uhc _)
            (flagSub_trans
              (flagSub_mupdate (mupdate net.nodes a (pushNb b)) b (pushNb a)
                (pushNb_isGateway a))
              (flagSub_mupdate net.nodes a (pushNb b) (pushNb_isGateway b)))
        obtain ⟨n0, hn0, hflag0⟩ := hsub k n hfind hflag
        have hres := hf k n0 hn0 hflag0
        rw [uhc_gatewayId]
        exact hres
    | removeDevice id =>
      show FlagInv (removeDevice net id).2
      unfold removeDevice
      cases hnode : mfind net.nodes id with
      | none => exact hf
      | some node =>
        unfold updateRoutingTable
        intro k n hfind hflag
        rw [uhc_gatewayId]
        obtain ⟨n2, hn2, hflag2⟩ := flagSub_uhc _ k n hfind hflag
        rw [removeDevice_mfind net.nodes id node k] at hn2
        by_cases hkid : k = id
        · rw [if_pos hkid] at hn2
          cases hn2
        · rw [if_neg hkid] at hn2
          have hfm : ∃ n0, mfind net.nodes k = some n0 ∧ n0.isGateway = true := by
            by_cases hkL : k ∈ node.neighbors
            · rw [if_pos hkL] at hn2
              cases hm : mfind net.nodes k with
              | none =>
                rw [hm] at hn2
                cases hn2
              | some n0 =>
                rw [hm] at hn2
                injection hn2 with he
                rw [← he, pruneN_isGateway] at hflag2
                exact ⟨n0, rfl, hflag2⟩
            · rw [if_neg hkL] at hn2
              exact ⟨n2, hn2, hflag2⟩
          obtain ⟨n0, hn0, hflag0⟩ := hfm
          obtain ⟨hkgw, hgwne⟩ := hf k n0 hn0 hflag0
          by_cases hidgw : id = net.gatewayId
          · exact absurd (hkgw.trans hidgw.symm) hkid
          · simp only [hidgw, if_false, Bool.false_eq_true]
            exact ⟨hkgw, hgwne⟩
    | setGateway id =>
      show FlagInv (setGateway net id)
      unfold setGateway
      by_cases hpres : (mfind net.nodes id).isSome = true
      · rw [if_pos hpres]
        have hidne : id ≠ "" := by
          intro h
          rw [h] at hpres
          rw [hk] at hpres
          cases hpres
        intro k n hfind hflag
        rw [uhc_gatewayId]
        obtain ⟨n2, hn2, hflag2⟩ := flagSub_uhc _ k n hfind hflag
        rw [mfind_mupdate] at hn2
        by_cases hkX : id = k
        · exact ⟨hkX.symm, hidne⟩
        · rw [if_neg hkX] at hn2
          exfalso
          by_cases hgw : net.gatewayId ≠ ""
          · rw [if_pos hgw, mfind_mupdate] at hn2
            by_cases hgwk : net.gatewayId = k
            · rw [if_pos hgwk] at hn2
              cases hm : mfind net.nodes net.gatewayId with
              | none =>
                rw [hm] at hn2
                cases hn2
              | some n0 =>
                rw [hm] at hn2
                injection hn2 with he
                rw [← he] at hflag2
                cases hflag2
            · rw [if_neg hgwk] at hn2
              obtain ⟨hkgw, _⟩ := hf k n2 hn2 hflag2
              exact hgwk hkgw.symm
          · rw [if_neg hgw] at hn2
            obtain ⟨hkgw, hgwne⟩ := hf k n2 hn2 hflag2
            exact hgw hgwne
      · rw [if_neg hpres]
        exact hf

theorem meshInv_runOps (ops : List MeshOp) :
    ∀ net : MeshNetwork, (∀ op ∈ ops, opOKb op = true) → MeshInv net →
      MeshInv (runOps ops net) := by
  induction ops with
  | nil =>
    intro net _ hinv
    exact hinv
  | cons op ops ih =>
    intro net hok hinv
    exact ih (applyOp net op)
      (fun o ho => hok o (List.mem_cons.mpr (Or.inr ho)))
      (meshInv_applyOp net op (hok op (List.mem_cons_self _ _)) hinv)

theorem meshInv_init (mh : Int) : MeshInv (MeshNetwork.mk0 mh) := by
  refine ⟨?_, ?_, rfl, ?_⟩
  · intro k n hfind
    cases hfind
  · intro p r hadj
    obtain ⟨n, hfind, _⟩ := hadj
    cases hfind
  · intro k n hfind
    cases hfind

theorem setGateway_gatewayId (net : MeshNetwork) (X : String)
    (hpres : (mfind net.nodes X).isSome = true) :
    (setGateway net X).gatewayId = X := by
  unfold setGateway
  rw [if_pos hpres, uhc_gatewayId]

theorem setGateway_post (net : MeshNetwork) (X : String) (hinv : MeshInv net)
    (hX : (mfind net.nodes X).isSome = true) :
    (∀ k n, mfind (setGateway net X).nodes k = some n → n.isGateway = true →
      k = X) ∧
    (∃ n, mfind (setGateway net X).nodes X = some n ∧ n.isGateway = true ∧
      n.hopCountToGateway = 0) := by
  have hinv2 := meshInv_applyOp net (.setGateway X) rfl hinv
  constructor
  · intro k n hfind hflag
    obtain ⟨_, _, _, hf2⟩ := hinv2
    have hres := hf2 k n hfind hflag
    have happ : applyOp net (MeshOp.setGateway X) = setGateway net X := rfl
    rw [happ, setGateway_gatewayId net X hX] at hres
    exact hres.1
  · obtain ⟨hc, hs, hk, hf⟩ := hinv
    have hXne : ¬ X = "" := by
      intro h
      rw [h, hk] at hX
      cases hX
    unfold setGateway
    rw [if_pos hX]
    have hsome1 : (mfind (if net.gatewayId ≠ "" then
        mupdate net.nodes net.gatewayId (fun n => { n with isGateway := false })
        else net.nodes) X).isSome = true := by
      by_cases hgw : net.gatewayId ≠ ""
      · rw [if_pos hgw, mupdate_isSome]
        exact hX
      · rw [if_neg hgw]
        exact hX
    obtain ⟨n1, hn1⟩ := Option.isSome_iff_exists.mp hsome1
    have hn2 : mfind (mupdate (if net.gatewayId ≠ "" then
        mupdate net.nodes net.gatewayId (fun n => { n with isGateway := false })
        else net.nodes) X
        (fun n => { n with isGateway := true, hopCountToGateway := 0 })) X =
        some { n1 with isGateway := true, hopCountToGateway := 0 } := by
      rw [mfind_mupdate, if_pos rfl, hn1, Option.map_some']
    have hgoal := uhc_gw
      { net with
        nodes := mupdate (if net.gatewayId ≠ "" then
          mupdate net.nodes net.gatewayId (fun n => { n with isGateway := false })
          else net.nodes) X
          (fun n => { n with isGateway := true, hopCountToGateway := 0 }),
        gatewayId := X }
      { n1 with isGateway := true, hopCountToGateway := 0 } hXne hn2
    exact ⟨{ n1 with isGateway := true, hopCountToGateway := 0 }, hgoal, rfl, rfl⟩

/-- C2 (amended): in every state reachable through `addDevice` calls that
never pass `isGatewayNode = true` and use nonempty ids, plus arbitrary
`addNeighbor`, `removeDevice` and `setGateway` calls, at most one node has
`isGateway = true`; and calling `setGateway(X)` on an existing node `X` of
such a state leaves `X` as the unique flagged node with hop count 0, the
previously flagged gateway (if different) being cleared. -/
theorem c2_gateway_uniqueness_amended (ops : List MeshOp) (mh : Int) (X : String)
    (hok : ∀ op ∈ ops, opOKb op = true) :
    (∀ a b na nb2,
      mfind (runOps ops (MeshNetwork.mk0 mh)).nodes a = some na →
      mfind (runOps ops (MeshNetwork.mk0 mh)).nodes b = some nb2 →
      na.isGateway = true → nb2.isGateway = true → a = b) ∧
    ((mfind (runOps ops (MeshNetwork.mk0 mh)).nodes X).isSome = true →
      (∀ k n,
        mfind (setGateway (runOps ops (MeshNetwork.mk0 mh)) X).nodes k = some n →
        n.isGateway = true → k = X) ∧
      (∃ n,
        mfind (setGateway (runOps ops (MeshNetwork.mk0 mh)) X).nodes X = some n ∧
        n.isGateway = true ∧ n.hopCountToGateway = 0) ∧
      (∀ n, ¬ (runOps ops (MeshNetwork.mk0 mh)).gatewayId = X →
        mfind (setGateway (runOps ops (MeshNetwork.mk0 mh)) X).nodes
          (runOps ops (MeshNetwork.mk0 mh)).gatewayId = some n →
        n.isGateway = false)) := by
  have hinv := meshInv_runOps ops (MeshNetwork.mk0 mh) hok (meshInv_init mh)
  constructor
  · intro a b na nb2 hna hnb2 hfa hfb
    obtain ⟨_, _, _, hf⟩ := hinv
    exact ((hf a na hna hfa).1).trans ((hf b nb2 hnb2 hfb).1).symm
  · intro hX
    obtain ⟨hpost1, hpost2⟩ :=
      setGateway_post (runOps ops (MeshNetwork.mk0 mh)) X hinv hX
    refine ⟨hpost1, hpost2, ?_⟩
    intro n hne hfind
    cases hb : n.isGateway with
    | false => rfl
    | true => exact absurd (hpost1 _ n hfind hb) hne

/-- C2 counterexample to the claim as stated: registering two devices as
gateways through `addDevice` leaves both `isGateway` flags raised at once —
a reachable state with two distinct gateway nodes. -/
theorem c2_counterexample_two_gateways :
    (mfind twoGatewayNet.nodes "A").map MeshNode.isGateway = some true ∧
    (mfind twoGatewayNet.nodes "B").map MeshNode.isGateway = some true ∧
    ("A" : String) ≠ "B" := by
  decide

theorem c2_witness :
    (c2WitnessOps.all opOKb = true) ∧
    ((mfind (runOps c2WitnessOps (MeshNetwork.mk0 10)).nodes "B").isSome = true) ∧
    (∃ n,
      mfind (setGateway (runOps c2WitnessOps (MeshNetwork.mk0 10)) "B").nodes "B" =
        some n ∧ n.isGateway = true ∧ n.hopCountToGateway = 0) :=
  ⟨by decide, by decide,
   ((c2_gateway_uniqueness_amended c2WitnessOps 10 "B" (by decide)).2
     (by decide)).2.1⟩

end IoTSim
